import Mathlib

/-! The clazy `CheckBase` class: shared controller of the checks.

Shallow embedding of `src/checkbase.cpp`.

* The members of a `CheckBase` object are the fields of the structure `CheckBase`.
  The diagnostics engine reached through `m_ci.getDiagnostics()` is the field
  `m_ci.diagnostics`: the list of diagnostics reported so far, oldest first.
* Everything the file consumes from clang and from the check registry (validity and
  macro test of a position, system-header test, file name, presumed location,
  `Utils::presumedLocationsEqual`, `CheckManager::allFixitsEnabled`) is a field of `Host`;
  every theorem holds for every host.
* The virtual members (`filesToIgnore`, `VisitStmt`, `VisitDecl`) are the fields of
  `Virtuals`; `CheckBase.baseVirtuals` holds the bodies found in `checkbase.cpp`.
* The message of a diagnostic is the text the diagnostics engine receives, `error.c_str()`
  read as a C string: the characters before the first NUL (`c_str`).
* `int` values are mathematical integers; the only arithmetic on them is `&`, which on
  two's complement numbers is `Int.land` and cannot overflow.
-/

namespace Clazy

/-! ## Data model -/

/-- The type clang::SourceLocation: a position identified by its raw encoding. -/
structure SourceLocation where
  ID : Nat
deriving DecidableEq

/-- The method SourceLocation::getRawEncoding. -/
def SourceLocation.getRawEncoding (l : SourceLocation) : Nat := l.ID

/-- The static method SourceLocation::getFromRawEncoding. -/
def SourceLocation.getFromRawEncoding (raw : Nat) : SourceLocation := ⟨raw⟩

/-- The type clang::PresumedLoc: file name (none for an invalid presumed location),
line and column. -/
structure PresumedLoc where
  Filename : Option String
  Line : Nat
  Col : Nat
deriving DecidableEq

/-- The type clang::FixItHint, an opaque edit that may be null. -/
structure FixItHint where
  isNull : Bool
  edit : Nat
deriving DecidableEq

/-- One report made to the diagnostics engine: position, the text the engine receives as
the format string of the diagnostic (always of severity Warning), attached fixit hints. How
the engine renders that text is outside the controller. -/
structure Diagnostic where
  loc : SourceLocation
  message : String
  fixits : List FixItHint
deriving DecidableEq

/-- The part of clang::Stmt the controller reads. -/
structure Stmt where
  locStart : SourceLocation
  node : Nat
deriving DecidableEq

/-- The part of clang::Decl the controller reads; isCXXMethodDecl tells whether
dyn_cast to CXXMethodDecl succeeds. -/
structure Decl where
  locStart : SourceLocation
  isCXXMethodDecl : Bool
  node : Nat
deriving DecidableEq

/-- The part of clang::CompilerInstance the controller uses: the diagnostics reported so
far (oldest first) and the translation unit handle. -/
structure CompilerInstance where
  diagnostics : List Diagnostic
  translationUnitDecl : Nat
deriving DecidableEq

/-- External collaborators: the source manager, the methods of SourceLocation, the
helper Utils::presumedLocationsEqual and the global flag of CheckManager. -/
structure Host where
  isValid : SourceLocation → Bool
  isMacroID : SourceLocation → Bool
  isInSystemHeader : SourceLocation → Bool
  getFilename : SourceLocation → String
  getPresumedLoc : SourceLocation → PresumedLoc
  presumedLocationsEqual : PresumedLoc → PresumedLoc → Bool
  allFixitsEnabled : Bool

/-- The members of class CheckBase. -/
structure CheckBase where
  m_ci : CompilerInstance
  m_name : String
  m_tu : Nat
  m_parentMap : Option Nat
  m_lastDecl : Option Decl
  m_lastMethodDecl : Option Decl
  m_enabledFixits : Int
  m_emittedWarningsInMacro : List Nat
  m_emittedManualFixItsWarningsInMacro : List Nat
  m_queuedManualInterventionWarnings : List (SourceLocation × String)
deriving DecidableEq

/-- The virtual members a concrete check may override. -/
structure Virtuals where
  filesToIgnore : List String
  VisitStmt : CheckBase → Stmt → CheckBase
  VisitDecl : CheckBase → Decl → CheckBase

/-! ## Operations -/

/-- The constructor CheckBase::CheckBase (the parent map is not initialised there and is
taken as absent). -/
def CheckBase.ctor (name : String) (ci : CompilerInstance) : CheckBase :=
  { m_ci := ci
    m_name := name
    m_tu := ci.translationUnitDecl
    m_parentMap := none
    m_lastDecl := none
    m_lastMethodDecl := none
    m_enabledFixits := 0
    m_emittedWarningsInMacro := []
    m_emittedManualFixItsWarningsInMacro := []
    m_queuedManualInterventionWarnings := [] }

/-- The method CheckBase::name. -/
def CheckBase.name (c : CheckBase) : String := c.m_name

/-- The method CheckBase::setParentMap. -/
def setParentMap (c : CheckBase) (parentMap : Option Nat) : CheckBase :=
  { c with m_parentMap := parentMap }

/-- The method CheckBase::VisitStmt of the base class: empty body. -/
def CheckBase.VisitStmt (c : CheckBase) (_stm : Stmt) : CheckBase := c

/-- The method CheckBase::VisitDecl of the base class: empty body. -/
def CheckBase.VisitDecl (c : CheckBase) (_decl : Decl) : CheckBase := c

/-- The method CheckBase::filesToIgnore of the base class: the empty list. -/
def CheckBase.filesToIgnore : List String := []

/-- The virtual members as defined by the base class. -/
def CheckBase.baseVirtuals : Virtuals :=
  { filesToIgnore := CheckBase.filesToIgnore
    VisitStmt := CheckBase.VisitStmt
    VisitDecl := CheckBase.VisitDecl }

/-- Modelled from the spec: the helper clazy_std::contains on strings, whose definition
(StringUtils.h) is not part of the sources at hand; a case-sensitive test that the second
string occurs as a contiguous substring of the first. -/
def clazy_std.contains (haystack needle : String) : Bool :=
  haystack.data.tails.any (fun t => needle.data.isPrefixOf t)

/-- The method CheckBase::shouldIgnoreFile. -/
def shouldIgnoreFile (h : Host) (v : Virtuals) (loc : SourceLocation) : Bool :=
  if !h.isValid loc || h.isInSystemHeader loc then
    true
  else
    let filename := h.getFilename loc
    v.filesToIgnore.any (fun ignored => clazy_std.contains filename ignored)

/-- The method CheckBase::VisitStatement. -/
def VisitStatement (h : Host) (v : Virtuals) (c : CheckBase) (stm : Stmt) : CheckBase :=
  if !shouldIgnoreFile h v stm.locStart then
    v.VisitStmt c stm
  else
    c

/-- The method CheckBase::VisitDeclaration. -/
def VisitDeclaration (h : Host) (v : Virtuals) (c : CheckBase) (decl : Decl) : CheckBase :=
  if shouldIgnoreFile h v decl.locStart then
    c
  else
    let c1 := { c with m_lastDecl := some decl }
    let c2 := if decl.isCXXMethodDecl then { c1 with m_lastMethodDecl := some decl } else c1
    v.VisitDecl c2 decl

/-- The method CheckBase::warningAlreadyEmitted: a linear scan of the macro-warning log. -/
def warningAlreadyEmitted (h : Host) (c : CheckBase) (loc : SourceLocation) : Bool :=
  let ploc := h.getPresumedLoc loc
  c.m_emittedWarningsInMacro.any (fun rawLoc =>
    let l := SourceLocation.getFromRawEncoding rawLoc
    let p := h.getPresumedLoc l
    h.presumedLocationsEqual p ploc)

/-- The method CheckBase::manualFixitAlreadyQueued: a linear scan of the
manual-intervention log. -/
def manualFixitAlreadyQueued (h : Host) (c : CheckBase) (loc : SourceLocation) : Bool :=
  let ploc := h.getPresumedLoc loc
  c.m_emittedManualFixItsWarningsInMacro.any (fun rawLoc =>
    let l := SourceLocation.getFromRawEncoding rawLoc
    let p := h.getPresumedLoc l
    h.presumedLocationsEqual p ploc)

/-- The method CheckBase::setEnabledFixits. -/
def setEnabledFixits (c : CheckBase) (fixits : Int) : CheckBase :=
  { c with m_enabledFixits := fixits }

/-- The method CheckBase::isFixitEnabled. -/
def isFixitEnabled (h : Host) (c : CheckBase) (fixit : Int) : Bool :=
  (Int.land c.m_enabledFixits fixit != 0) || h.allFixitsEnabled

/-- The NUL character, which ends a C string. -/
def NUL : Char := Char.ofNat 0

/-- The method std::string::c_str as the diagnostics engine reads it: a C string, that is
the characters before the first NUL. -/
def c_str (s : String) : String :=
  ⟨s.data.takeWhile (fun ch => ch != NUL)⟩

/-- The method CheckBase::reallyEmitWarning: one report to the diagnostics engine, which
receives the text as error.c_str(), with the non-null fixit hints attached in order. -/
def reallyEmitWarning (c : CheckBase) (loc : SourceLocation) (error : String)
    (fixits : List FixItHint) : CheckBase :=
  { c with m_ci := { c.m_ci with
      diagnostics := c.m_ci.diagnostics ++
        [⟨loc, c_str error, fixits.filter (fun f => !f.isNull)⟩] } }

/-- The body of the loop of CheckBase::emitWarning over the queued manual-intervention
warnings. -/
def emitQueued (tag : String) (c : CheckBase) (l : SourceLocation × String) : CheckBase :=
  let msg := "FixIt failed, requires manual intervention: "
  let msg := if !l.2.isEmpty then msg ++ (String.singleton ' ' ++ l.2) else msg
  reallyEmitWarning c l.1 (msg ++ tag) []

/-- The method CheckBase::emitWarning (four-argument overload). -/
def emitWarning (h : Host) (c : CheckBase) (loc : SourceLocation) (error : String)
    (fixits : List FixItHint) (printWarningTag : Bool) : CheckBase :=
  if h.isMacroID loc && warningAlreadyEmitted h c loc then
    c
  else
    let c1 :=
      if h.isMacroID loc then
        { c with m_emittedWarningsInMacro := c.m_emittedWarningsInMacro ++ [loc.getRawEncoding] }
      else c
    let tag := " [-Wclazy-" ++ c1.name ++ String.singleton ']'
    let error := if printWarningTag then error ++ tag else error
    let c2 := reallyEmitWarning c1 loc error fixits
    let c3 := c2.m_queuedManualInterventionWarnings.foldl (emitQueued tag) c2
    { c3 with m_queuedManualInterventionWarnings := [] }

/-- The method CheckBase::emitWarning (three-argument overload). -/
def emitWarning3 (h : Host) (c : CheckBase) (loc : SourceLocation) (error : String)
    (printWarningTag : Bool) : CheckBase :=
  emitWarning h c loc error [] printWarningTag

/-- The method CheckBase::queueManualFixitWarning. -/
def queueManualFixitWarning (h : Host) (c : CheckBase) (loc : SourceLocation)
    (fixitType : Int) (message : String) : CheckBase :=
  if isFixitEnabled h c fixitType && !manualFixitAlreadyQueued h c loc then
    { c with
      m_queuedManualInterventionWarnings := c.m_queuedManualInterventionWarnings ++ [(loc, message)]
      m_emittedManualFixItsWarningsInMacro :=
        c.m_emittedManualFixItsWarningsInMacro ++ [loc.getRawEncoding] }
  else
    c

/-! ## Sequences of operations -/

/-- One call on a check of the base class. -/
inductive Op where
  | emitWarning (loc : SourceLocation) (error : String) (fixits : List FixItHint)
      (printWarningTag : Bool)
  | queueManualFixitWarning (loc : SourceLocation) (fixitType : Int) (message : String)
  | setEnabledFixits (fixits : Int)
  | setParentMap (parentMap : Option Nat)
  | VisitStatement (stm : Stmt)
  | VisitDeclaration (decl : Decl)

/-- The effect of one call. -/
def step (h : Host) (c : CheckBase) : Op → CheckBase
  | .emitWarning loc error fixits printWarningTag => emitWarning h c loc error fixits printWarningTag
  | .queueManualFixitWarning loc fixitType message => queueManualFixitWarning h c loc fixitType message
  | .setEnabledFixits fixits => setEnabledFixits c fixits
  | .setParentMap parentMap => setParentMap c parentMap
  | .VisitStatement stm => VisitStatement h CheckBase.baseVirtuals c stm
  | .VisitDeclaration decl => VisitDeclaration h CheckBase.baseVirtuals c decl

/-- The effect of a sequence of calls, first call first. -/
def run (h : Host) (c : CheckBase) (ops : List Op) : CheckBase :=
  ops.foldl (step h) c

/-! ## Derived notions used in the statements -/

/-- The tag the check appends to its messages. -/
def warningTag (c : CheckBase) : String :=
  " [-Wclazy-" ++ c.name ++ String.singleton ']'

/-- A text holds no NUL character. -/
def nulFree (s : String) : Bool :=
  s.data.all (fun ch => ch != NUL)

/-- The primary diagnostic of an emitWarning call: the text is handed over as a C string. -/
def primaryDiagnostic (c : CheckBase) (loc : SourceLocation) (error : String)
    (fixits : List FixItHint) (printWarningTag : Bool) : Diagnostic :=
  ⟨loc, c_str (if printWarningTag then error ++ warningTag c else error),
    fixits.filter (fun f => !f.isNull)⟩

/-- The diagnostic sent for one queued manual-intervention entry: the text is handed over
as a C string. -/
def manualDiagnostic (c : CheckBase) (l : SourceLocation × String) : Diagnostic :=
  ⟨l.1, c_str ("FixIt failed, requires manual intervention: "
      ++ (if l.2.isEmpty then "" else " " ++ l.2) ++ warningTag c), []⟩

/-- A call of emitWarning is suppressed: macro position with an equal presumed location
already in the macro-warning log. -/
def suppressed (h : Host) (c : CheckBase) (loc : SourceLocation) : Bool :=
  h.isMacroID loc && warningAlreadyEmitted h c loc

/-- The arguments of one emitWarning call. -/
structure EmitCall where
  loc : SourceLocation
  error : String
  fixits : List FixItHint
  printWarningTag : Bool
deriving DecidableEq

/-- Successive calls of emitWarning, first call first. -/
def emitAll (h : Host) (c : CheckBase) : List EmitCall → CheckBase
  | [] => c
  | call :: rest =>
    emitAll h (emitWarning h c call.loc call.error call.fixits call.printWarningTag) rest

/-- The rule of queueManualFixitWarning as the specification words it: the duplicate test
and the recording of step 1 of emitWarning (both only for a position from macro expansion),
applied to the manual-intervention log. Compared with queueManualFixitWarning below. -/
def queueManualFixitWarning_spec (h : Host) (c : CheckBase) (loc : SourceLocation)
    (fixitType : Int) (message : String) : CheckBase :=
  if isFixitEnabled h c fixitType then
    if h.isMacroID loc then
      if manualFixitAlreadyQueued h c loc then
        c
      else
        { c with
          m_queuedManualInterventionWarnings :=
            c.m_queuedManualInterventionWarnings ++ [(loc, message)]
          m_emittedManualFixItsWarningsInMacro :=
            c.m_emittedManualFixItsWarningsInMacro ++ [loc.getRawEncoding] }
    else
      { c with
        m_queuedManualInterventionWarnings :=
          c.m_queuedManualInterventionWarnings ++ [(loc, message)] }
  else
    c

/-! ## A concrete host for the closed examples

File positions are the numbers below 2^31 and macro positions the numbers from 2^31 on, as
in clang. The macro position 2^31 + n expands at the file position n % 1000; a position is
presumed at line n / 100 + 1, column n % 100 + 1 of its file, and position 0 is invalid. -/

/-- The file position a position expands at, in the sample translation unit. -/
def sampleExpansion (l : SourceLocation) : Nat :=
  if 2 ^ 31 ≤ l.ID then (l.ID - 2 ^ 31) % 1000 else l.ID

/-- The file of a file position in the sample translation unit. -/
def sampleFile (n : Nat) : String :=
  if n < 500 then "src/foo.cpp" else if n < 900 then "generated/foo.h" else "/usr/include/stdio.h"

/-- The sample host: presumed locations are equal when both are valid and agree on column,
line and file name. -/
def sampleHost : Host :=
  { isValid := fun l => l.ID != 0
    isMacroID := fun l => decide (2 ^ 31 ≤ l.ID)
    isInSystemHeader := fun l => decide (900 ≤ sampleExpansion l)
    getFilename := fun l => sampleFile (sampleExpansion l)
    getPresumedLoc := fun l =>
      let n := sampleExpansion l
      if n = 0 then ⟨none, 0, 0⟩ else ⟨some (sampleFile n), n / 100 + 1, n % 100 + 1⟩
    presumedLocationsEqual := fun a b =>
      a.Filename.isSome && b.Filename.isSome && a.Col == b.Col && a.Line == b.Line
        && a.Filename == b.Filename
    allFixitsEnabled := false }

/-- The sample host with the global override set. -/
def sampleHostAll : Host := { sampleHost with allFixitsEnabled := true }

/-- A compiler instance that has reported nothing yet. -/
def sampleCI : CompilerInstance := ⟨[], 0⟩

/-- A check class for the closed examples: it ignores the files whose name contains
"generated/", and its hooks request a warning at the start of the visited node. -/
def sampleVirtuals : Virtuals :=
  { filesToIgnore := ["generated/"]
    VisitStmt := fun c stm => emitWarning sampleHost c stm.locStart "found issue" [] true
    VisitDecl := fun c decl => emitWarning sampleHost c decl.locStart "found issue" [] true }

/-- The invariant of the logs and the queue of a check: every entry of the macro-warning
log is a macro position; no two entries of the macro-warning log have equal presumed
locations (in either order of comparison), and likewise for the manual-intervention log;
every position in the manual-intervention queue has its raw encoding in the
manual-intervention log. -/
def logsWellFormed (h : Host) (c : CheckBase) : Prop :=
  (∀ r ∈ c.m_emittedWarningsInMacro, h.isMacroID (SourceLocation.getFromRawEncoding r) = true)
  ∧ c.m_emittedWarningsInMacro.Pairwise (fun a b =>
      h.presumedLocationsEqual (h.getPresumedLoc (SourceLocation.getFromRawEncoding a))
        (h.getPresumedLoc (SourceLocation.getFromRawEncoding b)) = false
      ∧ h.presumedLocationsEqual (h.getPresumedLoc (SourceLocation.getFromRawEncoding b))
        (h.getPresumedLoc (SourceLocation.getFromRawEncoding a)) = false)
  ∧ c.m_emittedManualFixItsWarningsInMacro.Pairwise (fun a b =>
      h.presumedLocationsEqual (h.getPresumedLoc (SourceLocation.getFromRawEncoding a))
        (h.getPresumedLoc (SourceLocation.getFromRawEncoding b)) = false
      ∧ h.presumedLocationsEqual (h.getPresumedLoc (SourceLocation.getFromRawEncoding b))
        (h.getPresumedLoc (SourceLocation.getFromRawEncoding a)) = false)
  ∧ ∀ l ∈ c.m_queuedManualInterventionWarnings,
      l.1.getRawEncoding ∈ c.m_emittedManualFixItsWarningsInMacro

/-! ## Lemmas on the operations -/

theorem foldl_emitQueued (tag : String) (q : List (SourceLocation × String)) (c : CheckBase) :
    q.foldl (emitQueued tag) c =
      { c with
        m_ci := { c.m_ci with
          diagnostics := c.m_ci.diagnostics ++
            q.map (fun l => (⟨l.1, c_str ("FixIt failed, requires manual intervention: "
              ++ (if l.2.isEmpty then "" else " " ++ l.2) ++ tag), []⟩ : Diagnostic)) } } := by
  induction q generalizing c with
  | nil => simp
  | cons l q ih =>
    rw [List.foldl_cons, ih]
    have hs : String.singleton ' ' = " " := rfl
    cases hl : l.2.isEmpty <;>
      simp [emitQueued, reallyEmitWarning, hl, hs, List.append_assoc]

/-- A suppressed call returns the check as it was. -/
theorem emitWarning_suppressed (h : Host) (c : CheckBase) (loc : SourceLocation)
    (error : String) (fixits : List FixItHint) (printWarningTag : Bool)
    (hs : suppressed h c loc = true) :
    emitWarning h c loc error fixits printWarningTag = c := by
  unfold suppressed at hs
  simp [emitWarning, hs]

/-- A call that is not suppressed: the log grows for a macro position, the primary
diagnostic and one diagnostic per queued entry are reported, the queue is cleared. -/
theorem emitWarning_emitted (h : Host) (c : CheckBase) (loc : SourceLocation)
    (error : String) (fixits : List FixItHint) (printWarningTag : Bool)
    (hs : suppressed h c loc = false) :
    emitWarning h c loc error fixits printWarningTag =
      { c with
        m_ci := { c.m_ci with
          diagnostics := c.m_ci.diagnostics ++
            primaryDiagnostic c loc error fixits printWarningTag ::
              c.m_queuedManualInterventionWarnings.map (manualDiagnostic c) }
        m_emittedWarningsInMacro :=
          if h.isMacroID loc then c.m_emittedWarningsInMacro ++ [loc.getRawEncoding]
          else c.m_emittedWarningsInMacro
        m_queuedManualInterventionWarnings := [] } := by
  unfold suppressed at hs
  unfold emitWarning
  rw [if_neg (by simp [hs])]
  simp only [foldl_emitQueued]
  cases hm : h.isMacroID loc <;> cases printWarningTag <;>
    simp [reallyEmitWarning, primaryDiagnostic, manualDiagnostic, warningTag, CheckBase.name]

theorem getFromRawEncoding_getRawEncoding (l : SourceLocation) :
    SourceLocation.getFromRawEncoding l.getRawEncoding = l := rfl

/-- Nothing is suppressed on a check whose macro-warning log is empty. -/
theorem suppressed_of_log_nil (h : Host) (c : CheckBase) (loc : SourceLocation)
    (hl : c.m_emittedWarningsInMacro = []) : suppressed h c loc = false := by
  simp [suppressed, warningAlreadyEmitted, hl]

/-- Calls that are all suppressed leave the check as it was. -/
theorem emitAll_suppressed (h : Host) (c : CheckBase) (calls : List EmitCall)
    (hs : ∀ call ∈ calls, suppressed h c call.loc = true) : emitAll h c calls = c := by
  induction calls with
  | nil => rfl
  | cons call rest ih =>
    have h1 := emitWarning_suppressed h c call.loc call.error call.fixits call.printWarningTag
      (hs call (List.mem_cons_self _ _))
    simp only [emitAll, h1]
    exact ih (fun b hb => hs b (List.mem_cons_of_mem _ hb))

/-- The first emitWarning call on a fresh check, at a macro position. -/
theorem emitWarning_ctor_macro (h : Host) (name : String) (ci : CompilerInstance)
    (loc : SourceLocation) (error : String) (fixits : List FixItHint) (printWarningTag : Bool)
    (hm : h.isMacroID loc = true) :
    emitWarning h (CheckBase.ctor name ci) loc error fixits printWarningTag =
      { CheckBase.ctor name ci with
        m_ci := { ci with
          diagnostics := ci.diagnostics ++
            [primaryDiagnostic (CheckBase.ctor name ci) loc error fixits printWarningTag] }
        m_emittedWarningsInMacro := [loc.getRawEncoding] } := by
  rw [emitWarning_emitted h _ loc error fixits printWarningTag
    (suppressed_of_log_nil h _ loc rfl)]
  simp [CheckBase.ctor, hm]

/-- One call only appends to the two logs. -/
theorem step_logs_grow (h : Host) (c : CheckBase) (op : Op) :
    (∃ t, (step h c op).m_emittedWarningsInMacro = c.m_emittedWarningsInMacro ++ t)
      ∧ ∃ t, (step h c op).m_emittedManualFixItsWarningsInMacro
          = c.m_emittedManualFixItsWarningsInMacro ++ t := by
  cases op with
  | emitWarning loc error fixits printWarningTag =>
    simp only [step]
    cases hs : suppressed h c loc
    · rw [emitWarning_emitted h c loc error fixits printWarningTag hs]
      refine ⟨?_, ⟨[], by simp⟩⟩
      cases h.isMacroID loc
      · exact ⟨[], by simp⟩
      · exact ⟨[loc.getRawEncoding], by simp⟩
    · rw [emitWarning_suppressed h c loc error fixits printWarningTag hs]
      exact ⟨⟨[], by simp⟩, ⟨[], by simp⟩⟩
  | queueManualFixitWarning loc fixitType message =>
    simp only [step, queueManualFixitWarning]
    split
    · exact ⟨⟨[], by simp⟩, ⟨[loc.getRawEncoding], rfl⟩⟩
    · exact ⟨⟨[], by simp⟩, ⟨[], by simp⟩⟩
  | setEnabledFixits fixits => exact ⟨⟨[], by simp [step, setEnabledFixits]⟩, ⟨[], by simp [step, setEnabledFixits]⟩⟩
  | setParentMap parentMap => exact ⟨⟨[], by simp [step, setParentMap]⟩, ⟨[], by simp [step, setParentMap]⟩⟩
  | VisitStatement stm =>
    simp only [step, VisitStatement, CheckBase.baseVirtuals, CheckBase.VisitStmt]
    split <;> exact ⟨⟨[], by simp⟩, ⟨[], by simp⟩⟩
  | VisitDeclaration decl =>
    simp only [step, VisitDeclaration, CheckBase.baseVirtuals, CheckBase.VisitDecl]
    split
    · exact ⟨⟨[], by simp⟩, ⟨[], by simp⟩⟩
    · cases decl.isCXXMethodDecl <;> exact ⟨⟨[], by simp⟩, ⟨[], by simp⟩⟩

/-- A sequence of calls only appends to the two logs. -/
theorem run_logs_grow (h : Host) (ops : List Op) (c : CheckBase) :
    (∃ t, (run h c ops).m_emittedWarningsInMacro = c.m_emittedWarningsInMacro ++ t)
      ∧ ∃ t, (run h c ops).m_emittedManualFixItsWarningsInMacro
          = c.m_emittedManualFixItsWarningsInMacro ++ t := by
  induction ops generalizing c with
  | nil => exact ⟨⟨[], by simp [run]⟩, ⟨[], by simp [run]⟩⟩
  | cons op ops ih =>
    obtain ⟨⟨t1, h1⟩, ⟨t2, h2⟩⟩ := step_logs_grow h c op
    obtain ⟨⟨u1, k1⟩, ⟨u2, k2⟩⟩ := ih (step h c op)
    have hr : run h c (op :: ops) = run h (step h c op) ops := rfl
    rw [hr]
    exact ⟨⟨t1 ++ u1, by rw [k1, h1, List.append_assoc]⟩,
      ⟨t2 ++ u2, by rw [k2, h2, List.append_assoc]⟩⟩

/-- The scan of the manual-intervention log succeeds exactly when a recorded position has
a presumed location equal to that of the requested position. -/
theorem manualFixitAlreadyQueued_iff (h : Host) (c : CheckBase) (loc : SourceLocation) :
    manualFixitAlreadyQueued h c loc = true ↔
      ∃ r ∈ c.m_emittedManualFixItsWarningsInMacro,
        h.presumedLocationsEqual (h.getPresumedLoc (SourceLocation.getFromRawEncoding r))
          (h.getPresumedLoc loc) = true := by
  simp [manualFixitAlreadyQueued, List.any_eq_true]

/-- A call of queueManualFixitWarning that goes through. -/
theorem queueManualFixitWarning_added (h : Host) (c : CheckBase) (loc : SourceLocation)
    (fixitType : Int) (message : String) (he : isFixitEnabled h c fixitType = true)
    (hq : manualFixitAlreadyQueued h c loc = false) :
    queueManualFixitWarning h c loc fixitType message =
      { c with
        m_queuedManualInterventionWarnings :=
          c.m_queuedManualInterventionWarnings ++ [(loc, message)]
        m_emittedManualFixItsWarningsInMacro :=
          c.m_emittedManualFixItsWarningsInMacro ++ [loc.getRawEncoding] } := by
  simp [queueManualFixitWarning, he, hq]

/-- A call of queueManualFixitWarning that is dropped. -/
theorem queueManualFixitWarning_dropped (h : Host) (c : CheckBase) (loc : SourceLocation)
    (fixitType : Int) (message : String)
    (hd : isFixitEnabled h c fixitType = false ∨ manualFixitAlreadyQueued h c loc = true) :
    queueManualFixitWarning h c loc fixitType message = c := by
  rcases hd with hd | hd <;> simp [queueManualFixitWarning, hd]

/-- The tag of a check, written out. -/
theorem warningTag_eq (c : CheckBase) : warningTag c = " [-Wclazy-" ++ c.name ++ "]" := rfl

/-- The tag and the two kinds of diagnostic depend on the check through its name only. -/
theorem diagnostics_congr (c1 c2 : CheckBase) (hn : c1.m_name = c2.m_name) :
    primaryDiagnostic c1 = primaryDiagnostic c2 ∧ manualDiagnostic c1 = manualDiagnostic c2 := by
  constructor
  · funext loc error fixits printWarningTag
    simp [primaryDiagnostic, warningTag, CheckBase.name, hn]
  · funext l
    simp [manualDiagnostic, warningTag, CheckBase.name, hn]

/-- One call keeps the name of the check and appends to the reported diagnostics either
nothing or, for an emitWarning call, its primary diagnostic followed by one diagnostic per
entry of a queue. -/
theorem step_block (h : Host) (c : CheckBase) (op : Op) :
    (step h c op).m_name = c.m_name ∧
    ∃ block : List Diagnostic,
      (step h c op).m_ci.diagnostics = c.m_ci.diagnostics ++ block ∧
      (block = [] ∨ ∃ (loc : SourceLocation) (error : String) (fixits : List FixItHint)
        (printWarningTag : Bool) (q : List (SourceLocation × String)),
        op = Op.emitWarning loc error fixits printWarningTag ∧
        block = primaryDiagnostic c loc error fixits printWarningTag ::
          q.map (manualDiagnostic c)) := by
  cases op with
  | emitWarning loc error fixits printWarningTag =>
    simp only [step]
    cases hs : suppressed h c loc
    · rw [emitWarning_emitted h c loc error fixits printWarningTag hs]
      exact ⟨rfl, _, rfl, Or.inr ⟨loc, error, fixits, printWarningTag, _, rfl, rfl⟩⟩
    · rw [emitWarning_suppressed h c loc error fixits printWarningTag hs]
      exact ⟨rfl, [], by simp, Or.inl rfl⟩
  | queueManualFixitWarning loc fixitType message =>
    simp only [step, queueManualFixitWarning]
    split <;> exact ⟨rfl, [], by simp, Or.inl rfl⟩
  | setEnabledFixits fixits => exact ⟨rfl, [], by simp [step, setEnabledFixits], Or.inl rfl⟩
  | setParentMap parentMap => exact ⟨rfl, [], by simp [step, setParentMap], Or.inl rfl⟩
  | VisitStatement stm =>
    simp only [step, VisitStatement, CheckBase.baseVirtuals, CheckBase.VisitStmt]
    split <;> exact ⟨rfl, [], by simp, Or.inl rfl⟩
  | VisitDeclaration decl =>
    simp only [step, VisitDeclaration, CheckBase.baseVirtuals, CheckBase.VisitDecl]
    split
    · exact ⟨rfl, [], by simp, Or.inl rfl⟩
    · cases decl.isCXXMethodDecl <;> exact ⟨rfl, [], by simp, Or.inl rfl⟩

/-- Clearing the bits of a from a single bit leaves that bit or nothing. -/
theorem ldiff_two_pow (a k : Nat) : Nat.ldiff (2 ^ k) a = (!a.testBit k).toNat * 2 ^ k := by
  apply Nat.eq_of_testBit_eq
  intro i
  rw [Nat.testBit_ldiff, Nat.testBit_two_pow]
  by_cases hki : k = i
  · subst hki
    cases ha : a.testBit k <;> simp [ha]
  · cases ha : a.testBit k <;> simp [hki, Nat.testBit_two_pow]

/-- The bitwise AND of a two's complement integer with a single bit is non-zero exactly
when that bit is set in the integer. -/
theorem land_two_pow_ne_zero (m : Int) (k : Nat) :
    Int.land m (2 ^ k) ≠ 0 ↔ m.testBit k = true := by
  have h2 : ((2 : Int) ^ k) = Int.ofNat (2 ^ k) := by simp
  rw [h2]
  cases m with
  | ofNat a =>
    show ((a &&& 2 ^ k : Nat) : Int) ≠ 0 ↔ a.testBit k = true
    rw [Nat.and_two_pow]
    cases ha : a.testBit k <;> simp
  | negSucc a =>
    show ((Nat.ldiff (2 ^ k) a : Nat) : Int) ≠ 0 ↔ (!a.testBit k) = true
    rw [ldiff_two_pow]
    cases ha : a.testBit k <;> simp

/-- The modelled substring test holds exactly when the haystack is some text, the needle,
and some text. -/
theorem contains_iff (haystack needle : String) :
    clazy_std.contains haystack needle = true ↔
      ∃ pre post : String, haystack = pre ++ needle ++ post := by
  simp only [clazy_std.contains, List.any_eq_true, List.mem_tails]
  constructor
  · rintro ⟨t, ⟨pre, hpre⟩, ht⟩
    obtain ⟨post, hpost⟩ := List.isPrefixOf_iff_prefix.mp ht
    refine ⟨⟨pre⟩, ⟨post⟩, ?_⟩
    apply String.ext
    simp [String.data_append, ← hpre, ← hpost]
  · rintro ⟨pre, post, hdata⟩
    refine ⟨needle.data ++ post.data, ⟨pre.data, ?_⟩, ?_⟩
    · rw [hdata]
      simp [String.data_append]
    · exact List.isPrefixOf_iff_prefix.mpr ⟨post.data, rfl⟩

/-- The invariant only reads the two logs and the queue. -/
theorem logsWellFormed_congr (h : Host) (c1 c2 : CheckBase)
    (h1 : c1.m_emittedWarningsInMacro = c2.m_emittedWarningsInMacro)
    (h2 : c1.m_emittedManualFixItsWarningsInMacro = c2.m_emittedManualFixItsWarningsInMacro)
    (h3 : c1.m_queuedManualInterventionWarnings = c2.m_queuedManualInterventionWarnings)
    (hw : logsWellFormed h c2) : logsWellFormed h c1 := by
  unfold logsWellFormed at *
  rw [h1, h2, h3]
  exact hw

/-- The invariant on a fresh check. -/
theorem logsWellFormed_ctor (h : Host) (name : String) (ci : CompilerInstance) :
    logsWellFormed h (CheckBase.ctor name ci) := by
  simp [logsWellFormed, CheckBase.ctor]

/-- Every call keeps the invariant when presumed-location equality is symmetric. -/
theorem logsWellFormed_step (h : Host)
    (hsym : ∀ a b, h.presumedLocationsEqual a b = h.presumedLocationsEqual b a)
    (c : CheckBase) (op : Op) (hw : logsWellFormed h c) : logsWellFormed h (step h c op) := by
  cases op with
  | emitWarning loc error fixits printWarningTag =>
    simp only [step]
    cases hs : suppressed h c loc
    · rw [emitWarning_emitted h c loc error fixits printWarningTag hs]
      obtain ⟨w1, w2, w3, _⟩ := hw
      cases hm : h.isMacroID loc
      · exact ⟨by simpa using w1, by simpa using w2, w3, by simp⟩
      · have hnot : ∀ r ∈ c.m_emittedWarningsInMacro,
            h.presumedLocationsEqual (h.getPresumedLoc (SourceLocation.getFromRawEncoding r))
              (h.getPresumedLoc loc) = false := by
          intro r hr
          cases hv : h.presumedLocationsEqual
              (h.getPresumedLoc (SourceLocation.getFromRawEncoding r)) (h.getPresumedLoc loc)
          · rfl
          · have hany : warningAlreadyEmitted h c loc = true := by
              simp only [warningAlreadyEmitted, List.any_eq_true]
              exact ⟨r, hr, hv⟩
            simp [suppressed, hm, hany] at hs
        refine ⟨?_, ?_, w3, by simp⟩
        · intro r hr
          simp only [if_true, List.mem_append, List.mem_singleton] at hr
          rcases hr with hr | hr
          · exact w1 r hr
          · rw [hr]
            exact hm
        · simp only [if_true]
          rw [List.pairwise_append]
          refine ⟨w2, List.pairwise_singleton _ _, ?_⟩
          intro a ha b hb
          rw [List.mem_singleton] at hb
          rw [hb]
          exact ⟨hnot a ha, by rw [hsym]; exact hnot a ha⟩
    · rw [emitWarning_suppressed h c loc error fixits printWarningTag hs]
      exact hw
  | queueManualFixitWarning loc fixitType message =>
    simp only [step]
    cases hd : (isFixitEnabled h c fixitType && !manualFixitAlreadyQueued h c loc)
    · have hsame : queueManualFixitWarning h c loc fixitType message = c := by
        simp [queueManualFixitWarning, hd]
      rw [hsame]
      exact hw
    · simp only [Bool.and_eq_true, Bool.not_eq_true', ] at hd
      rw [queueManualFixitWarning_added h c loc fixitType message hd.1 hd.2]
      obtain ⟨w1, w2, w3, w4⟩ := hw
      have hnot : ∀ r ∈ c.m_emittedManualFixItsWarningsInMacro,
          h.presumedLocationsEqual (h.getPresumedLoc (SourceLocation.getFromRawEncoding r))
            (h.getPresumedLoc loc) = false := by
        intro r hr
        cases hv : h.presumedLocationsEqual
            (h.getPresumedLoc (SourceLocation.getFromRawEncoding r)) (h.getPresumedLoc loc)
        · rfl
        · have hany := (manualFixitAlreadyQueued_iff h c loc).mpr ⟨r, hr, hv⟩
          rw [hd.2] at hany
          cases hany
      refine ⟨w1, w2, ?_, ?_⟩
      · show List.Pairwise _ (c.m_emittedManualFixItsWarningsInMacro ++ [loc.getRawEncoding])
        rw [List.pairwise_append]
        refine ⟨w3, List.pairwise_singleton _ _, ?_⟩
        intro a ha b hb
        rw [List.mem_singleton] at hb
        rw [hb]
        exact ⟨hnot a ha, by rw [hsym]; exact hnot a ha⟩
      · intro l hl
        show l.1.getRawEncoding ∈ c.m_emittedManualFixItsWarningsInMacro ++ [loc.getRawEncoding]
        have hl2 : l ∈ c.m_queuedManualInterventionWarnings ++ [(loc, message)] := hl
        rw [List.mem_append, List.mem_singleton] at hl2
        rcases hl2 with hl2 | hl2
        · exact List.mem_append_left _ (w4 l hl2)
        · rw [hl2]
          simp
  | setEnabledFixits fixits => exact logsWellFormed_congr h _ c rfl rfl rfl hw
  | setParentMap parentMap => exact logsWellFormed_congr h _ c rfl rfl rfl hw
  | VisitStatement stm =>
    simp only [step, VisitStatement, CheckBase.baseVirtuals, CheckBase.VisitStmt]
    split <;> exact hw
  | VisitDeclaration decl =>
    simp only [step, VisitDeclaration, CheckBase.baseVirtuals, CheckBase.VisitDecl]
    split
    · exact hw
    · cases decl.isCXXMethodDecl <;> exact logsWellFormed_congr h _ c rfl rfl rfl hw

/-- Every sequence of calls keeps the invariant when presumed-location equality is
symmetric. -/
theorem logsWellFormed_run (h : Host)
    (hsym : ∀ a b, h.presumedLocationsEqual a b = h.presumedLocationsEqual b a)
    (ops : List Op) (c : CheckBase) (hw : logsWellFormed h c) :
    logsWellFormed h (run h c ops) := by
  induction ops generalizing c with
  | nil => exact hw
  | cons op ops ih => exact ih (step h c op) (logsWellFormed_step h hsym c op hw)

/-- Presumed-location equality of the sample host is symmetric. -/
theorem sampleHost_symmetric (a b : PresumedLoc) :
    sampleHost.presumedLocationsEqual a b = sampleHost.presumedLocationsEqual b a := by
  simp only [sampleHost]
  rw [Bool.eq_iff_iff]
  simp only [Bool.and_eq_true, beq_iff_eq]
  constructor <;> rintro ⟨⟨⟨⟨h1, h2⟩, h3⟩, h4⟩, h5⟩ <;> exact ⟨⟨⟨⟨h2, h1⟩, h3.symm⟩, h4.symm⟩, h5.symm⟩

/-- Calls of emitWarning at positions that are not macro positions, on a check with an
empty queue: each call reports its primary diagnostic and the macro-warning log stays as
it was. -/
theorem emitAll_non_macro (h : Host) (calls : List EmitCall) (c : CheckBase)
    (hnon : ∀ call ∈ calls, h.isMacroID call.loc = false)
    (hq : c.m_queuedManualInterventionWarnings = []) :
    (emitAll h c calls).m_ci.diagnostics = c.m_ci.diagnostics ++ calls.map (fun call =>
        primaryDiagnostic c call.loc call.error call.fixits call.printWarningTag)
      ∧ (emitAll h c calls).m_emittedWarningsInMacro = c.m_emittedWarningsInMacro := by
  induction calls generalizing c with
  | nil => simp [emitAll]
  | cons call rest ih =>
    have hm := hnon call (List.mem_cons_self _ _)
    have he := emitWarning_emitted h c call.loc call.error call.fixits call.printWarningTag
      (by simp [suppressed, hm])
    have hrest := ih (emitWarning h c call.loc call.error call.fixits call.printWarningTag)
      (fun b hb => hnon b (List.mem_cons_of_mem _ hb)) (by rw [he])
    obtain ⟨hp, _⟩ := diagnostics_congr
      (emitWarning h c call.loc call.error call.fixits call.printWarningTag) c (by rw [he])
    rw [hp] at hrest
    simp only [emitAll]
    rw [hrest.1, hrest.2, he]
    simp [hq, hm]

/-- An integer is non-zero exactly when one of its two's complement bits is set. -/
theorem int_ne_zero_iff_testBit (x : Int) : x ≠ 0 ↔ ∃ k, x.testBit k = true := by
  cases x with
  | ofNat n =>
    constructor
    · intro hx
      have hn : n ≠ 0 := by
        intro h0
        apply hx
        rw [h0]
        rfl
      exact Nat.ne_zero_implies_bit_true hn
    · rintro ⟨k, hk⟩ h0
      have hn : n = 0 := by simpa using h0
      rw [hn] at hk
      simp [Int.testBit] at hk
  | negSucc n =>
    constructor
    · intro _
      refine ⟨n, ?_⟩
      show (!n.testBit n) = true
      rw [Nat.testBit_lt_two_pow (Nat.lt_two_pow n)]
      rfl
    · intro _ h0
      cases h0

/-- The scan of the macro-warning log succeeds exactly when a recorded position has a
presumed location equal to that of the requested position. -/
theorem warningAlreadyEmitted_iff (h : Host) (c : CheckBase) (loc : SourceLocation) :
    warningAlreadyEmitted h c loc = true ↔
      ∃ r ∈ c.m_emittedWarningsInMacro,
        h.presumedLocationsEqual (h.getPresumedLoc (SourceLocation.getFromRawEncoding r))
          (h.getPresumedLoc loc) = true := by
  simp [warningAlreadyEmitted, List.any_eq_true]

/-- A text without NUL is handed over whole. -/
theorem c_str_of_nulFree (s : String) (hs : nulFree s = true) : c_str s = s := by
  apply String.ext
  simp only [c_str]
  rw [List.takeWhile_eq_self_iff]
  exact List.all_eq_true.mp hs

/-- A concatenation holds no NUL when neither part does. -/
theorem nulFree_append (s t : String) : nulFree (s ++ t) = (nulFree s && nulFree t) := by
  simp only [nulFree, String.data_append, List.all_append]

/-! ## The claims -/

/-- C1: starting from a freshly constructed check, for every non-empty sequence of
emitWarning calls whose positions are all macro positions with pairwise-equal presumed
locations, exactly one diagnostic reaches the sink, the primary diagnostic of the first
call; every later call sends nothing (it returns the check unchanged). -/
theorem C1_macro_duplicates_emit_once (h : Host) (name : String) (ci : CompilerInstance)
    (first : EmitCall) (rest : List EmitCall)
    (hpos : ∀ call ∈ first :: rest, h.isMacroID call.loc = true)
    (heq : (first :: rest).Pairwise (fun a b =>
      h.presumedLocationsEqual (h.getPresumedLoc a.loc) (h.getPresumedLoc b.loc) = true)) :
    (emitAll h (CheckBase.ctor name ci) (first :: rest)).m_ci.diagnostics =
        ci.diagnostics ++ [primaryDiagnostic (CheckBase.ctor name ci) first.loc first.error
          first.fixits first.printWarningTag]
      ∧ ∀ pre call post, rest = pre ++ call :: post →
          emitWarning h (emitAll h (CheckBase.ctor name ci) (first :: pre)) call.loc call.error
              call.fixits call.printWarningTag
            = emitAll h (CheckBase.ctor name ci) (first :: pre) := by
  have hfirst := emitWarning_ctor_macro h name ci first.loc first.error first.fixits
    first.printWarningTag (hpos first (List.mem_cons_self _ _))
  have hsup : ∀ b ∈ rest, suppressed h (emitWarning h (CheckBase.ctor name ci) first.loc
      first.error first.fixits first.printWarningTag) b.loc = true := by
    intro b hb
    have hb1 := hpos b (List.mem_cons_of_mem _ hb)
    have hb2 := (List.pairwise_cons.mp heq).1 b hb
    rw [hfirst]
    simp [suppressed, warningAlreadyEmitted, hb1, hb2, SourceLocation.getFromRawEncoding,
      SourceLocation.getRawEncoding]
  constructor
  · simp only [emitAll]
    rw [emitAll_suppressed h _ rest hsup, hfirst]
  · intro pre call post hrest
    have hpre : emitAll h (CheckBase.ctor name ci) (first :: pre) =
        emitWarning h (CheckBase.ctor name ci) first.loc first.error first.fixits
          first.printWarningTag := by
      simp only [emitAll]
      exact emitAll_suppressed h _ pre (fun b hb => hsup b (by simp [hrest, hb]))
    rw [hpre]
    exact emitWarning_suppressed h _ _ _ _ _ (hsup call (by simp [hrest]))

/-- Witness of C1 on the sample host: three calls at macro positions that expand at the
same place. -/
theorem C1_macro_duplicates_emit_once_witness :
    (emitAll sampleHost (CheckBase.ctor "X" sampleCI)
        [⟨⟨2 ^ 31 + 7⟩, "a", [], true⟩, ⟨⟨2 ^ 31 + 1007⟩, "b", [], true⟩,
          ⟨⟨2 ^ 31 + 2007⟩, "c", [], false⟩]).m_ci.diagnostics =
        sampleCI.diagnostics ++ [primaryDiagnostic (CheckBase.ctor "X" sampleCI) ⟨2 ^ 31 + 7⟩ "a"
          [] true]
      ∧ ∀ pre call post,
          [(⟨⟨2 ^ 31 + 1007⟩, "b", [], true⟩ : EmitCall), ⟨⟨2 ^ 31 + 2007⟩, "c", [], false⟩]
            = pre ++ call :: post →
          emitWarning sampleHost (emitAll sampleHost (CheckBase.ctor "X" sampleCI)
              ((⟨⟨2 ^ 31 + 7⟩, "a", [], true⟩ : EmitCall) :: pre)) call.loc call.error
              call.fixits call.printWarningTag
            = emitAll sampleHost (CheckBase.ctor "X" sampleCI)
              ((⟨⟨2 ^ 31 + 7⟩, "a", [], true⟩ : EmitCall) :: pre) :=
  C1_macro_duplicates_emit_once sampleHost "X" sampleCI ⟨⟨2 ^ 31 + 7⟩, "a", [], true⟩
    [⟨⟨2 ^ 31 + 1007⟩, "b", [], true⟩, ⟨⟨2 ^ 31 + 2007⟩, "c", [], false⟩]
    (by decide) (by decide)

/-- C2: no over-suppression. On a fresh check, when the presumed location of a is not equal
to that of b, emitWarning at a and then at b sends two diagnostics, the primary one of each
call in order; more generally, in every state, emitWarning sends its primary diagnostic
(followed by the queued notices) whenever no position recorded in the macro-warning log has
a presumed location equal to that of the requested position. -/
theorem C2_no_over_suppression (h : Host) :
    (∀ (name : String) (ci : CompilerInstance) (a b : SourceLocation) (ea eb : String)
        (fa fb : List FixItHint) (ta tb : Bool),
        h.presumedLocationsEqual (h.getPresumedLoc a) (h.getPresumedLoc b) = false →
        (emitWarning h (emitWarning h (CheckBase.ctor name ci) a ea fa ta) b eb fb tb).m_ci.diagnostics
          = ci.diagnostics ++ [primaryDiagnostic (CheckBase.ctor name ci) a ea fa ta,
              primaryDiagnostic (CheckBase.ctor name ci) b eb fb tb])
    ∧ (∀ (c : CheckBase) (loc : SourceLocation) (error : String) (fixits : List FixItHint)
        (printWarningTag : Bool),
        (∀ r ∈ c.m_emittedWarningsInMacro,
          h.presumedLocationsEqual (h.getPresumedLoc (SourceLocation.getFromRawEncoding r))
            (h.getPresumedLoc loc) = false) →
        (emitWarning h c loc error fixits printWarningTag).m_ci.diagnostics
          = c.m_ci.diagnostics ++ primaryDiagnostic c loc error fixits printWarningTag ::
              c.m_queuedManualInterventionWarnings.map (manualDiagnostic c)) := by
  constructor
  · intro name ci a b ea eb fa fb ta tb hne
    rw [emitWarning_emitted h (CheckBase.ctor name ci) a ea fa ta
      (suppressed_of_log_nil h _ a rfl)]
    rw [emitWarning_emitted h _ b eb fb tb]
    · simp [CheckBase.ctor, primaryDiagnostic, warningTag, CheckBase.name]
    · cases hm : h.isMacroID a <;>
        simp [suppressed, warningAlreadyEmitted, CheckBase.ctor, hm, hne,
          SourceLocation.getFromRawEncoding, SourceLocation.getRawEncoding]
  · intro c loc error fixits printWarningTag hlog
    have hscan : warningAlreadyEmitted h c loc = false := by
      cases hv : warningAlreadyEmitted h c loc
      · rfl
      · obtain ⟨r, hr, hr2⟩ := (warningAlreadyEmitted_iff h c loc).mp hv
        rw [hlog r hr] at hr2
        cases hr2
    rw [emitWarning_emitted h c loc error fixits printWarningTag (by simp [suppressed, hscan])]

/-- Witness of C2 on the sample host: two macro positions that expand at different places;
and, on a check whose log already holds two sites while a notice is queued, a warning at a
third macro site. -/
theorem C2_no_over_suppression_witness :
    (emitWarning sampleHost (emitWarning sampleHost (CheckBase.ctor "X" sampleCI)
        ⟨2 ^ 31 + 7⟩ "one" [] true) ⟨2 ^ 31 + 8⟩ "two" [] true).m_ci.diagnostics
      = [⟨⟨2 ^ 31 + 7⟩, "one [-Wclazy-X]", []⟩, ⟨⟨2 ^ 31 + 8⟩, "two [-Wclazy-X]", []⟩]
    ∧ (run sampleHost (CheckBase.ctor "X" sampleCI)
          [.setEnabledFixits 4, .emitWarning ⟨2 ^ 31 + 7⟩ "one" [] true,
            .emitWarning ⟨2 ^ 31 + 8⟩ "two" [] true,
            .queueManualFixitWarning ⟨3⟩ 4 "msg"]).m_emittedWarningsInMacro
        = [2 ^ 31 + 7, 2 ^ 31 + 8]
    ∧ (emitWarning sampleHost
        (run sampleHost (CheckBase.ctor "X" sampleCI)
          [.setEnabledFixits 4, .emitWarning ⟨2 ^ 31 + 7⟩ "one" [] true,
            .emitWarning ⟨2 ^ 31 + 8⟩ "two" [] true,
            .queueManualFixitWarning ⟨3⟩ 4 "msg"])
        ⟨2 ^ 31 + 9⟩ "three" [] false).m_ci.diagnostics
      = [⟨⟨2 ^ 31 + 7⟩, "one [-Wclazy-X]", []⟩, ⟨⟨2 ^ 31 + 8⟩, "two [-Wclazy-X]", []⟩,
          ⟨⟨2 ^ 31 + 9⟩, "three", []⟩,
          ⟨⟨3⟩, "FixIt failed, requires manual intervention:  msg [-Wclazy-X]", []⟩] :=
  ⟨(C2_no_over_suppression sampleHost).1 "X" sampleCI ⟨2 ^ 31 + 7⟩ ⟨2 ^ 31 + 8⟩ "one" "two"
      [] [] true true (by decide),
    by decide,
    (C2_no_over_suppression sampleHost).2
      (run sampleHost (CheckBase.ctor "X" sampleCI)
        [.setEnabledFixits 4, .emitWarning ⟨2 ^ 31 + 7⟩ "one" [] true,
          .emitWarning ⟨2 ^ 31 + 8⟩ "two" [] true,
          .queueManualFixitWarning ⟨3⟩ 4 "msg"])
      ⟨2 ^ 31 + 9⟩ "three" [] false (by decide)⟩

/-- C3, counterexample: on the sample host, after a warning at a macro position and a
queued notice, a second emitWarning at a macro position expanding at the same place is
suppressed and the manual-intervention queue still holds the notice afterwards. -/
theorem C3_counterexample :
    suppressed sampleHost
        (run sampleHost (CheckBase.ctor "X" sampleCI)
          [.setEnabledFixits 4, .emitWarning ⟨2 ^ 31 + 7⟩ "found issue" [] true,
            .queueManualFixitWarning ⟨3⟩ 4 "msg"]) ⟨2 ^ 31 + 1007⟩ = true
    ∧ (emitWarning sampleHost
        (run sampleHost (CheckBase.ctor "X" sampleCI)
          [.setEnabledFixits 4, .emitWarning ⟨2 ^ 31 + 7⟩ "found issue" [] true,
            .queueManualFixitWarning ⟨3⟩ 4 "msg"])
        ⟨2 ^ 31 + 1007⟩ "found issue" [] true).m_queuedManualInterventionWarnings
      = [(⟨3⟩, "msg")] := by
  decide

/-- C3, amended: after every emitWarning call that is not suppressed as a macro duplicate,
for every position, message, fixit list, tag flag and prior state, the manual-intervention
queue is empty; a suppressed call leaves the queue as it was. -/
theorem C3_queue_after_emitWarning (h : Host) (c : CheckBase) (loc : SourceLocation)
    (error : String) (fixits : List FixItHint) (printWarningTag : Bool) :
    (emitWarning h c loc error fixits printWarningTag).m_queuedManualInterventionWarnings
      = if suppressed h c loc = true then c.m_queuedManualInterventionWarnings else [] := by
  cases hs : suppressed h c loc
  · rw [emitWarning_emitted h c loc error fixits printWarningTag hs]
    simp
  · rw [emitWarning_suppressed h c loc error fixits printWarningTag hs]
    simp

/-- C4, counterexample: on the sample host the macro position 2^31 + 7 is recorded in the
macro-warning log by a first warning; the file position 7 has an equal presumed location,
and a later emitWarning there still sends its primary diagnostic. -/
theorem C4_counterexample :
    (2 ^ 31 + 7) ∈ (emitWarning sampleHost (CheckBase.ctor "X" sampleCI) ⟨2 ^ 31 + 7⟩ "found issue"
        [] true).m_emittedWarningsInMacro
    ∧ sampleHost.presumedLocationsEqual (sampleHost.getPresumedLoc ⟨2 ^ 31 + 7⟩)
        (sampleHost.getPresumedLoc ⟨7⟩) = true
    ∧ (emitWarning sampleHost
        (emitWarning sampleHost (CheckBase.ctor "X" sampleCI) ⟨2 ^ 31 + 7⟩ "found issue" [] true)
        ⟨7⟩ "found issue" [] true).m_ci.diagnostics
      = [⟨⟨2 ^ 31 + 7⟩, "found issue [-Wclazy-X]", []⟩, ⟨⟨7⟩, "found issue [-Wclazy-X]", []⟩] := by
  decide

/-- C4, amended: over every sequence of check operations, once a position has been recorded
in the macro-warning log, no later emitWarning at a macro position with an equal presumed
location sends a primary diagnostic (the call changes nothing); once a position has been
recorded in the manual-intervention log, no later queueManualFixitWarning at any position
with an equal presumed location adds a queue entry (the call changes nothing), also after
the queue has been flushed; both logs only grow. -/
theorem C4_log_invariant (h : Host) (c : CheckBase) (ops : List Op) :
    (∃ t, (run h c ops).m_emittedWarningsInMacro = c.m_emittedWarningsInMacro ++ t)
    ∧ (∃ t, (run h c ops).m_emittedManualFixItsWarningsInMacro
          = c.m_emittedManualFixItsWarningsInMacro ++ t)
    ∧ (∀ r ∈ c.m_emittedWarningsInMacro, ∀ (loc : SourceLocation) (error : String)
        (fixits : List FixItHint) (printWarningTag : Bool),
        h.isMacroID loc = true →
        h.presumedLocationsEqual (h.getPresumedLoc (SourceLocation.getFromRawEncoding r))
          (h.getPresumedLoc loc) = true →
        emitWarning h (run h c ops) loc error fixits printWarningTag = run h c ops)
    ∧ (∀ r ∈ c.m_emittedManualFixItsWarningsInMacro, ∀ (loc : SourceLocation) (fixitType : Int)
        (message : String),
        h.presumedLocationsEqual (h.getPresumedLoc (SourceLocation.getFromRawEncoding r))
          (h.getPresumedLoc loc) = true →
        queueManualFixitWarning h (run h c ops) loc fixitType message = run h c ops) := by
  obtain ⟨⟨t1, h1⟩, ⟨t2, h2⟩⟩ := run_logs_grow h ops c
  refine ⟨⟨t1, h1⟩, ⟨t2, h2⟩, ?_, ?_⟩
  · intro r hr loc error fixits printWarningTag hm heq
    apply emitWarning_suppressed
    simp only [suppressed, warningAlreadyEmitted, hm, h1, Bool.true_and, List.any_eq_true]
    exact ⟨r, by simp [hr], heq⟩
  · intro r hr loc fixitType message heq
    have hq : manualFixitAlreadyQueued h (run h c ops) loc = true := by
      simp only [manualFixitAlreadyQueued, h2, List.any_eq_true]
      exact ⟨r, by simp [hr], heq⟩
    simp [queueManualFixitWarning, hq]

/-- Witness of C4 on the sample host: after a warning at the macro position 2^31 + 7 and a
notice queued at the file position 3, then a flush by a warning elsewhere, a warning at the
macro position 2^31 + 1007 and a notice at position 3 are both dropped. -/
theorem C4_log_invariant_witness :
    emitWarning sampleHost
        (run sampleHost
          (run sampleHost (CheckBase.ctor "X" sampleCI)
            [.setEnabledFixits 4, .emitWarning ⟨2 ^ 31 + 7⟩ "found issue" [] true,
              .queueManualFixitWarning ⟨3⟩ 4 "msg"])
          [.emitWarning ⟨9⟩ "other" [] true, .VisitDeclaration ⟨⟨5⟩, true, 0⟩])
        ⟨2 ^ 31 + 1007⟩ "found issue" [] true
      = run sampleHost
          (run sampleHost (CheckBase.ctor "X" sampleCI)
            [.setEnabledFixits 4, .emitWarning ⟨2 ^ 31 + 7⟩ "found issue" [] true,
              .queueManualFixitWarning ⟨3⟩ 4 "msg"])
          [.emitWarning ⟨9⟩ "other" [] true, .VisitDeclaration ⟨⟨5⟩, true, 0⟩]
    ∧ queueManualFixitWarning sampleHost
        (run sampleHost
          (run sampleHost (CheckBase.ctor "X" sampleCI)
            [.setEnabledFixits 4, .emitWarning ⟨2 ^ 31 + 7⟩ "found issue" [] true,
              .queueManualFixitWarning ⟨3⟩ 4 "msg"])
          [.emitWarning ⟨9⟩ "other" [] true, .VisitDeclaration ⟨⟨5⟩, true, 0⟩])
        ⟨3⟩ 4 "msg"
      = run sampleHost
          (run sampleHost (CheckBase.ctor "X" sampleCI)
            [.setEnabledFixits 4, .emitWarning ⟨2 ^ 31 + 7⟩ "found issue" [] true,
              .queueManualFixitWarning ⟨3⟩ 4 "msg"])
          [.emitWarning ⟨9⟩ "other" [] true, .VisitDeclaration ⟨⟨5⟩, true, 0⟩] :=
  ⟨(C4_log_invariant sampleHost _ _).2.2.1 (2 ^ 31 + 7) (by decide) ⟨2 ^ 31 + 1007⟩
      "found issue" [] true (by decide) (by decide),
    (C4_log_invariant sampleHost _ _).2.2.2 3 (by decide) ⟨3⟩ 4 "msg" (by decide)⟩

/-- C6, counterexample: on the sample host, with fixit 4 enabled, two calls of
queueManualFixitWarning at the file position 3 (not a macro position) queue one entry and
record the position in the log, where the rule worded after step 1 of emitWarning queues
two entries and records nothing. -/
theorem C6_counterexample :
    sampleHost.isMacroID ⟨3⟩ = false
    ∧ (queueManualFixitWarning sampleHost
        (queueManualFixitWarning sampleHost (setEnabledFixits (CheckBase.ctor "X" sampleCI) 4)
          ⟨3⟩ 4 "msg") ⟨3⟩ 4 "msg").m_queuedManualInterventionWarnings = [(⟨3⟩, "msg")]
    ∧ (queueManualFixitWarning sampleHost
        (queueManualFixitWarning sampleHost (setEnabledFixits (CheckBase.ctor "X" sampleCI) 4)
          ⟨3⟩ 4 "msg") ⟨3⟩ 4 "msg").m_emittedManualFixItsWarningsInMacro = [3]
    ∧ (queueManualFixitWarning_spec sampleHost
        (queueManualFixitWarning_spec sampleHost (setEnabledFixits (CheckBase.ctor "X" sampleCI) 4)
          ⟨3⟩ 4 "msg") ⟨3⟩ 4 "msg").m_queuedManualInterventionWarnings
        = [(⟨3⟩, "msg"), (⟨3⟩, "msg")]
    ∧ (queueManualFixitWarning_spec sampleHost
        (queueManualFixitWarning_spec sampleHost (setEnabledFixits (CheckBase.ctor "X" sampleCI) 4)
          ⟨3⟩ 4 "msg") ⟨3⟩ 4 "msg").m_emittedManualFixItsWarningsInMacro = [] := by
  decide

/-- C6, amended: the duplicate rule of queueManualFixitWarning is that of step 1 of
emitWarning applied to the manual-intervention log, without the test for macro expansion.
For an enabled fixit the call is dropped exactly when a recorded position has an equal
presumed location, whether or not the position is a macro position, and otherwise the raw
position is recorded, for every position; on macro positions this agrees with the rule of
step 1; and after a call at a position whose presumed location equals itself, a second call
at that position queues nothing more. -/
theorem C6_manual_duplicate_rule (h : Host) (c : CheckBase) (loc : SourceLocation)
    (fixitType : Int) (message : String) (he : isFixitEnabled h c fixitType = true) :
    (queueManualFixitWarning h c loc fixitType message = c ↔
        ∃ r ∈ c.m_emittedManualFixItsWarningsInMacro,
          h.presumedLocationsEqual (h.getPresumedLoc (SourceLocation.getFromRawEncoding r))
            (h.getPresumedLoc loc) = true)
    ∧ (queueManualFixitWarning h c loc fixitType message ≠ c →
        queueManualFixitWarning h c loc fixitType message =
          { c with
            m_queuedManualInterventionWarnings :=
              c.m_queuedManualInterventionWarnings ++ [(loc, message)]
            m_emittedManualFixItsWarningsInMacro :=
              c.m_emittedManualFixItsWarningsInMacro ++ [loc.getRawEncoding] })
    ∧ (h.isMacroID loc = true →
        queueManualFixitWarning h c loc fixitType message
          = queueManualFixitWarning_spec h c loc fixitType message)
    ∧ (h.presumedLocationsEqual (h.getPresumedLoc loc) (h.getPresumedLoc loc) = true →
        ∀ (fixitType2 : Int) (message2 : String),
          queueManualFixitWarning h (queueManualFixitWarning h c loc fixitType message) loc
              fixitType2 message2
            = queueManualFixitWarning h c loc fixitType message) := by
  refine ⟨?_, ?_, ?_, ?_⟩
  · rw [← manualFixitAlreadyQueued_iff]
    cases hq : manualFixitAlreadyQueued h c loc
    · rw [queueManualFixitWarning_added h c loc fixitType message he hq]
      simp only [Bool.false_eq_true, iff_false]
      intro hc
      have hlen := congrArg (fun x => x.m_queuedManualInterventionWarnings.length) hc
      simp at hlen
    · simp [queueManualFixitWarning_dropped h c loc fixitType message (Or.inr hq)]
  · intro hne
    cases hq : manualFixitAlreadyQueued h c loc
    · exact queueManualFixitWarning_added h c loc fixitType message he hq
    · exact absurd (queueManualFixitWarning_dropped h c loc fixitType message (Or.inr hq)) hne
  · intro hm
    simp [queueManualFixitWarning, queueManualFixitWarning_spec, he, hm]
    cases manualFixitAlreadyQueued h c loc <;> simp
  · intro hrefl fixitType2 message2
    apply queueManualFixitWarning_dropped
    right
    cases hq : manualFixitAlreadyQueued h c loc
    · rw [queueManualFixitWarning_added h c loc fixitType message he hq]
      rw [manualFixitAlreadyQueued_iff]
      exact ⟨loc.getRawEncoding, by simp, hrefl⟩
    · rw [queueManualFixitWarning_dropped h c loc fixitType message (Or.inr hq)]
      exact hq

/-- Witness of C6 on the sample host: with fixit 4 enabled, a second notice at the file
position 3 is dropped, and so is one at the macro position 2^31 + 1003 expanding there. -/
theorem C6_manual_duplicate_rule_witness :
    queueManualFixitWarning sampleHost
        (queueManualFixitWarning sampleHost (setEnabledFixits (CheckBase.ctor "X" sampleCI) 4)
          ⟨3⟩ 4 "msg") ⟨3⟩ 4 "again"
      = queueManualFixitWarning sampleHost (setEnabledFixits (CheckBase.ctor "X" sampleCI) 4)
          ⟨3⟩ 4 "msg"
    ∧ (queueManualFixitWarning sampleHost
          (queueManualFixitWarning sampleHost (setEnabledFixits (CheckBase.ctor "X" sampleCI) 4)
            ⟨3⟩ 4 "msg") ⟨2 ^ 31 + 1003⟩ 4 "again"
        = queueManualFixitWarning sampleHost (setEnabledFixits (CheckBase.ctor "X" sampleCI) 4)
            ⟨3⟩ 4 "msg" ↔
      ∃ r ∈ (queueManualFixitWarning sampleHost
          (setEnabledFixits (CheckBase.ctor "X" sampleCI) 4) ⟨3⟩ 4
          "msg").m_emittedManualFixItsWarningsInMacro,
        sampleHost.presumedLocationsEqual
          (sampleHost.getPresumedLoc (SourceLocation.getFromRawEncoding r))
          (sampleHost.getPresumedLoc ⟨2 ^ 31 + 1003⟩) = true) :=
  ⟨(C6_manual_duplicate_rule sampleHost (setEnabledFixits (CheckBase.ctor "X" sampleCI) 4)
      ⟨3⟩ 4 "msg" (by decide)).2.2.2 (by decide) 4 "again",
    (C6_manual_duplicate_rule sampleHost
      (queueManualFixitWarning sampleHost (setEnabledFixits (CheckBase.ctor "X" sampleCI) 4)
        ⟨3⟩ 4 "msg") ⟨2 ^ 31 + 1003⟩ 4 "again" (by decide)).1⟩

/-- C7, counterexample: on the sample host, fixit 4 enabled, the queued text holds a NUL
character after its first letter; the notice reaches the sink cut at the NUL, without the
rest of the queued text and without the check-name tag. -/
theorem C7_counterexample :
    (emitWarning sampleHost
        (queueManualFixitWarning sampleHost (setEnabledFixits (CheckBase.ctor "X" sampleCI) 4)
          ⟨3⟩ 4 "a\x00b") ⟨9⟩ "found issue" [] true).m_ci.diagnostics
      = [⟨⟨9⟩, "found issue [-Wclazy-X]", []⟩,
          ⟨⟨3⟩, "FixIt failed, requires manual intervention:  a", []⟩]
    ∧ "FixIt failed, requires manual intervention:  a"
      ≠ "FixIt failed, requires manual intervention: " ++ (" " ++ "a\x00b") ++ " [-Wclazy-X]"
    ∧ clazy_std.contains "FixIt failed, requires manual intervention:  a" "[-Wclazy-X]"
      = false := by
  decide

/-- C7, amended: flush on emission. For every emitWarning call that is not suppressed, with
the queue holding n entries before the call, the sink receives exactly n + 1 diagnostics in
this order: the primary diagnostic, then for each entry (p, m) in insertion order a
diagnostic at p with no fixits whose message is the C string (the characters before the
first NUL) of the text made of the marker "FixIt failed, requires manual intervention: ",
a space and m when m is non-empty, and the check-name tag, which is appended whatever the
tag flag of the call. When m and the name of the check hold no NUL character the message is
that whole text. -/
theorem C7_flush_on_emission (h : Host) (c : CheckBase) (loc : SourceLocation)
    (error : String) (fixits : List FixItHint) (printWarningTag : Bool)
    (hs : suppressed h c loc = false) :
    (emitWarning h c loc error fixits printWarningTag).m_ci.diagnostics =
        c.m_ci.diagnostics ++ primaryDiagnostic c loc error fixits printWarningTag ::
          c.m_queuedManualInterventionWarnings.map (fun l =>
            (⟨l.1, c_str ("FixIt failed, requires manual intervention: "
              ++ (if l.2.isEmpty then "" else " " ++ l.2)
              ++ (" [-Wclazy-" ++ c.name ++ "]")), []⟩ : Diagnostic))
    ∧ (emitWarning h c loc error fixits printWarningTag).m_ci.diagnostics.length =
        c.m_ci.diagnostics.length + (c.m_queuedManualInterventionWarnings.length + 1)
    ∧ (nulFree c.name = true → ∀ l ∈ c.m_queuedManualInterventionWarnings, nulFree l.2 = true →
        c_str ("FixIt failed, requires manual intervention: "
            ++ (if l.2.isEmpty then "" else " " ++ l.2) ++ (" [-Wclazy-" ++ c.name ++ "]"))
          = "FixIt failed, requires manual intervention: "
            ++ (if l.2.isEmpty then "" else " " ++ l.2) ++ (" [-Wclazy-" ++ c.name ++ "]")) := by
  rw [emitWarning_emitted h c loc error fixits printWarningTag hs]
  refine ⟨rfl, by simp, ?_⟩
  intro hname l _ hl
  apply c_str_of_nulFree
  have h1 : nulFree "FixIt failed, requires manual intervention: " = true := by decide
  have h2 : nulFree " " = true := by decide
  have h3 : nulFree "" = true := by decide
  have h4 : nulFree " [-Wclazy-" = true := by decide
  have h5 : nulFree "]" = true := by decide
  cases l.2.isEmpty <;> simp [nulFree_append, h1, h2, h3, h4, h5, hname, hl]

/-- Witness of C7, the scenario of the specification on the sample host: fixit 4 enabled,
a notice "msg" queued at position 3, then a warning "found issue" at position 9: two
diagnostics, the second one holding the marker and the queued text. -/
theorem C7_flush_on_emission_witness :
    ((emitWarning sampleHost
        (queueManualFixitWarning sampleHost (setEnabledFixits (CheckBase.ctor "X" sampleCI) 4)
          ⟨3⟩ 4 "msg") ⟨9⟩ "found issue" [] true).m_ci.diagnostics
      = [⟨⟨9⟩, "found issue [-Wclazy-X]", []⟩,
          ⟨⟨3⟩, "FixIt failed, requires manual intervention:  msg [-Wclazy-X]", []⟩]
    ∧ (emitWarning sampleHost
        (queueManualFixitWarning sampleHost (setEnabledFixits (CheckBase.ctor "X" sampleCI) 4)
          ⟨3⟩ 4 "msg") ⟨9⟩ "found issue" [] true).m_ci.diagnostics.length = 0 + (1 + 1))
    ∧ clazy_std.contains "FixIt failed, requires manual intervention:  msg [-Wclazy-X]"
        "requires manual intervention" = true
    ∧ clazy_std.contains "FixIt failed, requires manual intervention:  msg [-Wclazy-X]"
        "msg" = true :=
  ⟨⟨(C7_flush_on_emission sampleHost
      (queueManualFixitWarning sampleHost (setEnabledFixits (CheckBase.ctor "X" sampleCI) 4)
        ⟨3⟩ 4 "msg") ⟨9⟩ "found issue" [] true (by decide)).1,
    (C7_flush_on_emission sampleHost
      (queueManualFixitWarning sampleHost (setEnabledFixits (CheckBase.ctor "X" sampleCI) 4)
        ⟨3⟩ 4 "msg") ⟨9⟩ "found issue" [] true (by decide)).2.1⟩, by decide, by decide⟩

/-- C8, counterexample: on the sample host the check "X" warns at position 7 with a message
that holds a NUL character after its first letter; the first diagnostic carries the
message cut at the NUL, which is neither the message followed by the tag (tag flag true)
nor the message unchanged (tag flag false). -/
theorem C8_counterexample :
    (emitWarning sampleHost (CheckBase.ctor "X" sampleCI) ⟨7⟩ "a\x00b" [] true).m_ci.diagnostics
      = [⟨⟨7⟩, "a", []⟩]
    ∧ "a" ≠ "a\x00b" ++ " [-Wclazy-" ++ "X" ++ "]"
    ∧ (emitWarning sampleHost (CheckBase.ctor "X" sampleCI) ⟨7⟩ "a\x00b" []
        false).m_ci.diagnostics = [⟨⟨7⟩, "a", []⟩]
    ∧ "a" ≠ "a\x00b" := by
  decide

/-- C8, amended: primary diagnostic content. For every emitWarning call that is not
suppressed, the first diagnostic sent to the sink has the requested position, carries the
non-null fixit hints of the argument list in their original order, and has as message the
C string (the characters before the first NUL) of the message followed by " [-Wclazy-", the
name of the check and "]" when the tag flag is true, and of the message alone when it is
false. When the message holds no NUL character it is sent unchanged under a false flag,
and when the name of the check holds none either it is sent whole with its tag under a
true flag. -/
theorem C8_primary_diagnostic (h : Host) (c : CheckBase) (loc : SourceLocation)
    (error : String) (fixits : List FixItHint) (printWarningTag : Bool)
    (hs : suppressed h c loc = false) :
    (∃ later : List Diagnostic,
      (emitWarning h c loc error fixits printWarningTag).m_ci.diagnostics =
        c.m_ci.diagnostics ++
          (⟨loc, c_str (if printWarningTag = true then error ++ " [-Wclazy-" ++ c.name ++ "]"
              else error),
            fixits.filter (fun f => !f.isNull)⟩ : Diagnostic) :: later)
    ∧ (nulFree error = true → c_str error = error)
    ∧ (nulFree error = true → nulFree c.name = true →
        c_str (error ++ " [-Wclazy-" ++ c.name ++ "]") = error ++ " [-Wclazy-" ++ c.name ++ "]") := by
  refine ⟨?_, c_str_of_nulFree error, ?_⟩
  · rw [emitWarning_emitted h c loc error fixits printWarningTag hs]
    refine ⟨c.m_queuedManualInterventionWarnings.map (manualDiagnostic c), ?_⟩
    cases printWarningTag <;>
      simp [primaryDiagnostic, warningTag_eq, String.append_assoc]
  · intro herr hname
    apply c_str_of_nulFree
    have h4 : nulFree " [-Wclazy-" = true := by decide
    have h5 : nulFree "]" = true := by decide
    simp [nulFree_append, h4, h5, herr, hname]

/-- Witness of C8 on the sample host: the check "X" warns at position 7 of src/foo.cpp with
two null hints among four; one diagnostic, its message ending in " [-Wclazy-X]". -/
theorem C8_primary_diagnostic_witness :
    sampleHost.getFilename ⟨7⟩ = "src/foo.cpp"
    ∧ ∃ later : List Diagnostic,
      (emitWarning sampleHost (CheckBase.ctor "X" sampleCI) ⟨7⟩ "found issue"
          [⟨true, 0⟩, ⟨false, 1⟩, ⟨true, 2⟩, ⟨false, 3⟩] true).m_ci.diagnostics =
        [] ++ (⟨⟨7⟩, "found issue [-Wclazy-X]", [⟨false, 1⟩, ⟨false, 3⟩]⟩ : Diagnostic) :: later :=
  ⟨by decide, (C8_primary_diagnostic sampleHost (CheckBase.ctor "X" sampleCI) ⟨7⟩ "found issue"
    [⟨true, 0⟩, ⟨false, 1⟩, ⟨true, 2⟩, ⟨false, 3⟩] true (by decide)).1⟩

/-- C9: manual-intervention notices are never emitted standalone. For every state and
arguments queueManualFixitWarning sends nothing to the sink; and for every sequence of
operations the diagnostics added to the sink split into one block per operation, each block
being empty or being, for an emitWarning call, the primary diagnostic of that call followed
by manual-intervention diagnostics only: every manual-intervention diagnostic comes, within
its call, right after the primary diagnostic or after another notice of that call. -/
theorem C9_manual_notices_never_standalone (h : Host) :
    (∀ (c : CheckBase) (loc : SourceLocation) (fixitType : Int) (message : String),
        (queueManualFixitWarning h c loc fixitType message).m_ci.diagnostics
          = c.m_ci.diagnostics)
    ∧ (∀ (ops : List Op) (c : CheckBase), ∃ blocks : List (List Diagnostic),
        (run h c ops).m_ci.diagnostics = c.m_ci.diagnostics ++ blocks.flatten
        ∧ List.Forall₂ (fun op block =>
            block = [] ∨ ∃ (loc : SourceLocation) (error : String) (fixits : List FixItHint)
              (printWarningTag : Bool) (q : List (SourceLocation × String)),
              op = Op.emitWarning loc error fixits printWarningTag ∧
              block = primaryDiagnostic c loc error fixits printWarningTag ::
                q.map (manualDiagnostic c)) ops blocks) := by
  constructor
  · intro c loc fixitType message
    simp only [queueManualFixitWarning]
    split <;> rfl
  · intro ops
    induction ops with
    | nil => intro c; exact ⟨[], by simp [run], List.Forall₂.nil⟩
    | cons op ops ih =>
      intro c
      obtain ⟨hname, block, hblock, hshape⟩ := step_block h c op
      obtain ⟨blocks, hblocks, hall⟩ := ih (step h c op)
      obtain ⟨hp, hm⟩ := diagnostics_congr (step h c op) c hname
      rw [hp, hm] at hall
      refine ⟨block :: blocks, ?_, List.Forall₂.cons hshape hall⟩
      have hr : run h c (op :: ops) = run h (step h c op) ops := rfl
      rw [hr, hblocks, hblock]
      simp [List.append_assoc]

/-- C10: after setEnabledFixits(mask), for every fixit identifier that is a single bit
2^k, isFixitEnabled is true iff bit k is set in mask or the global override is set; for
every identifier the result is the same whatever mask was set earlier, as the call replaces
the local mask; and setEnabledFixits changes no other member of the check. -/
theorem C10_setEnabledFixits_replaces_mask (h : Host) (c : CheckBase) (mask : Int) (k : Nat) :
    (isFixitEnabled h (setEnabledFixits c mask) (2 ^ k) = true ↔
        (mask.testBit k = true ∨ h.allFixitsEnabled = true))
    ∧ (∀ earlier fixit : Int,
        isFixitEnabled h (setEnabledFixits (setEnabledFixits c earlier) mask) fixit
          = isFixitEnabled h (setEnabledFixits c mask) fixit)
    ∧ (setEnabledFixits c mask).m_enabledFixits = mask
    ∧ (setEnabledFixits c mask).m_ci = c.m_ci
    ∧ (setEnabledFixits c mask).m_name = c.m_name
    ∧ (setEnabledFixits c mask).m_tu = c.m_tu
    ∧ (setEnabledFixits c mask).m_parentMap = c.m_parentMap
    ∧ (setEnabledFixits c mask).m_lastDecl = c.m_lastDecl
    ∧ (setEnabledFixits c mask).m_lastMethodDecl = c.m_lastMethodDecl
    ∧ (setEnabledFixits c mask).m_emittedWarningsInMacro = c.m_emittedWarningsInMacro
    ∧ (setEnabledFixits c mask).m_emittedManualFixItsWarningsInMacro
        = c.m_emittedManualFixItsWarningsInMacro
    ∧ (setEnabledFixits c mask).m_queuedManualInterventionWarnings
        = c.m_queuedManualInterventionWarnings := by
  refine ⟨?_, ?_, rfl, rfl, rfl, rfl, rfl, rfl, rfl, rfl, rfl, rfl⟩
  · have hb := land_two_pow_ne_zero mask k
    simp only [isFixitEnabled, setEnabledFixits, Bool.or_eq_true, bne_iff_ne]
    rw [hb]
  · intro earlier fixit
    rfl

/-- C11: for every position that is invalid or lies inside a system header,
shouldIgnoreFile returns true, whatever list filesToIgnore returns, the empty list
included. -/
theorem C11_invalid_or_system_header_ignored (h : Host) (v : Virtuals) (loc : SourceLocation)
    (hloc : h.isValid loc = false ∨ h.isInSystemHeader loc = true) :
    shouldIgnoreFile h v loc = true
      ∧ shouldIgnoreFile h { v with filesToIgnore := [] } loc = true := by
  rcases hloc with hv | hsys
  · simp [shouldIgnoreFile, hv]
  · simp [shouldIgnoreFile, hsys]

/-- Witness of C11 on the sample host: the invalid position 0 and the position 950 of a
system header, with the base class and with a check that ignores "generated/". -/
theorem C11_invalid_or_system_header_ignored_witness :
    (shouldIgnoreFile sampleHost CheckBase.baseVirtuals ⟨0⟩ = true
      ∧ shouldIgnoreFile sampleHost { CheckBase.baseVirtuals with filesToIgnore := [] } ⟨0⟩ = true)
    ∧ (shouldIgnoreFile sampleHost sampleVirtuals ⟨950⟩ = true
      ∧ shouldIgnoreFile sampleHost { sampleVirtuals with filesToIgnore := [] } ⟨950⟩ = true) :=
  ⟨C11_invalid_or_system_header_ignored sampleHost CheckBase.baseVirtuals ⟨0⟩
      (Or.inl (by decide)),
    C11_invalid_or_system_header_ignored sampleHost sampleVirtuals ⟨950⟩ (Or.inr (by decide))⟩

/-- C12: for every valid position outside system headers, shouldIgnoreFile returns true iff
at least one string of filesToIgnore occurs as a contiguous substring of the file name of
the position (compared character by character, so case-sensitively); with the empty list
of the base class it returns false for every such position. -/
theorem C12_ignored_file_substring (h : Host) (v : Virtuals) (loc : SourceLocation)
    (hvalid : h.isValid loc = true) (hsys : h.isInSystemHeader loc = false) :
    (shouldIgnoreFile h v loc = true ↔
        ∃ ignored ∈ v.filesToIgnore, ∃ pre post : String,
          h.getFilename loc = pre ++ ignored ++ post)
    ∧ shouldIgnoreFile h CheckBase.baseVirtuals loc = false := by
  constructor
  · simp only [shouldIgnoreFile, hvalid, hsys, Bool.not_true, Bool.or_self, Bool.false_eq_true,
      if_false, List.any_eq_true, contains_iff]
  · simp [shouldIgnoreFile, hvalid, hsys, CheckBase.baseVirtuals, CheckBase.filesToIgnore]

/-- Witness of C12 on the sample host: position 600 lies in generated/foo.h, whose name
holds the ignored string "generated/" of the sample check, and the base class does not
ignore it; position 7 lies in src/foo.cpp, whose name holds no ignored string. -/
theorem C12_ignored_file_substring_witness :
    (∃ ignored ∈ sampleVirtuals.filesToIgnore, ∃ pre post : String,
        sampleHost.getFilename ⟨600⟩ = pre ++ ignored ++ post)
    ∧ shouldIgnoreFile sampleHost CheckBase.baseVirtuals ⟨600⟩ = false
    ∧ ¬ (∃ ignored ∈ sampleVirtuals.filesToIgnore, ∃ pre post : String,
        sampleHost.getFilename ⟨7⟩ = pre ++ ignored ++ post) :=
  ⟨(C12_ignored_file_substring sampleHost sampleVirtuals ⟨600⟩ (by decide) (by decide)).1.mp
      (by decide),
    (C12_ignored_file_substring sampleHost sampleVirtuals ⟨600⟩ (by decide) (by decide)).2,
    fun hx => absurd
      ((C12_ignored_file_substring sampleHost sampleVirtuals ⟨7⟩ (by decide) (by decide)).1.mpr hx)
      (by decide)⟩

/-- C13: traversal gating and cursors. For every node whose start position
shouldIgnoreFile rejects, VisitStatement and VisitDeclaration return the check unchanged,
whatever the hooks are, so the hook is not invoked. For every eligible declaration,
VisitDeclaration sets the last-declaration cursor to it, sets the last-method-declaration
cursor to it when it is a method and leaves that cursor unchanged otherwise, and then
applies the declaration hook once to the check so updated; for every eligible statement,
VisitStatement applies the statement hook once to the unchanged check, so neither cursor is
changed by the callback itself. With the empty hooks of the base class nothing else
changes. -/
theorem C13_traversal_gating (h : Host) (v : Virtuals) (c : CheckBase) (stm : Stmt)
    (decl : Decl) :
    (shouldIgnoreFile h v stm.locStart = true → VisitStatement h v c stm = c)
    ∧ (shouldIgnoreFile h v decl.locStart = true → VisitDeclaration h v c decl = c)
    ∧ (shouldIgnoreFile h v decl.locStart = false →
        VisitDeclaration h v c decl =
          v.VisitDecl
            { c with
              m_lastDecl := some decl
              m_lastMethodDecl :=
                if decl.isCXXMethodDecl = true then some decl else c.m_lastMethodDecl }
            decl)
    ∧ (shouldIgnoreFile h v stm.locStart = false → VisitStatement h v c stm = v.VisitStmt c stm)
    ∧ (shouldIgnoreFile h CheckBase.baseVirtuals decl.locStart = false →
        VisitDeclaration h CheckBase.baseVirtuals c decl =
          { c with
            m_lastDecl := some decl
            m_lastMethodDecl :=
              if decl.isCXXMethodDecl = true then some decl else c.m_lastMethodDecl })
    ∧ VisitStatement h CheckBase.baseVirtuals c stm = c := by
  refine ⟨?_, ?_, ?_, ?_, ?_, ?_⟩
  · intro hig
    simp [VisitStatement, hig]
  · intro hig
    simp [VisitDeclaration, hig]
  · intro hok
    cases hm : decl.isCXXMethodDecl <;> simp [VisitDeclaration, hok, hm]
  · intro hok
    simp [VisitStatement, hok]
  · intro hok
    simp only [VisitDeclaration, hok]
    cases hm : decl.isCXXMethodDecl <;> simp [CheckBase.baseVirtuals, CheckBase.VisitDecl]
  · simp [VisitStatement, CheckBase.baseVirtuals, CheckBase.VisitStmt]

/-- Witness of C13 on the sample host, with hooks that request a warning at the visited
node: a method declaration and a statement in the ignored file generated/foo.h leave the
check as it was (no diagnostic); in src/foo.cpp the declaration sets both cursors and its
hook reports one diagnostic, and a function declaration sets the first cursor only. -/
theorem C13_traversal_gating_witness :
    VisitStatement sampleHost sampleVirtuals (CheckBase.ctor "X" sampleCI) ⟨⟨600⟩, 1⟩
        = CheckBase.ctor "X" sampleCI
    ∧ VisitDeclaration sampleHost sampleVirtuals (CheckBase.ctor "X" sampleCI) ⟨⟨600⟩, true, 2⟩
        = CheckBase.ctor "X" sampleCI
    ∧ VisitDeclaration sampleHost sampleVirtuals (CheckBase.ctor "X" sampleCI) ⟨⟨7⟩, true, 3⟩
        = { CheckBase.ctor "X" sampleCI with
            m_ci := ⟨[⟨⟨7⟩, "found issue [-Wclazy-X]", []⟩], 0⟩
            m_lastDecl := some ⟨⟨7⟩, true, 3⟩
            m_lastMethodDecl := some ⟨⟨7⟩, true, 3⟩ }
    ∧ VisitStatement sampleHost sampleVirtuals (CheckBase.ctor "X" sampleCI) ⟨⟨8⟩, 4⟩
        = { CheckBase.ctor "X" sampleCI with
            m_ci := ⟨[⟨⟨8⟩, "found issue [-Wclazy-X]", []⟩], 0⟩ }
    ∧ VisitDeclaration sampleHost CheckBase.baseVirtuals
          (VisitDeclaration sampleHost CheckBase.baseVirtuals (CheckBase.ctor "X" sampleCI)
            ⟨⟨7⟩, true, 3⟩) ⟨⟨9⟩, false, 5⟩
        = { CheckBase.ctor "X" sampleCI with
            m_lastDecl := some ⟨⟨9⟩, false, 5⟩
            m_lastMethodDecl := some ⟨⟨7⟩, true, 3⟩ } :=
  ⟨(C13_traversal_gating sampleHost sampleVirtuals (CheckBase.ctor "X" sampleCI) ⟨⟨600⟩, 1⟩
      ⟨⟨600⟩, true, 2⟩).1 (by decide),
    (C13_traversal_gating sampleHost sampleVirtuals (CheckBase.ctor "X" sampleCI) ⟨⟨600⟩, 1⟩
      ⟨⟨600⟩, true, 2⟩).2.1 (by decide),
    (C13_traversal_gating sampleHost sampleVirtuals (CheckBase.ctor "X" sampleCI) ⟨⟨8⟩, 4⟩
      ⟨⟨7⟩, true, 3⟩).2.2.1 (by decide),
    (C13_traversal_gating sampleHost sampleVirtuals (CheckBase.ctor "X" sampleCI) ⟨⟨8⟩, 4⟩
      ⟨⟨7⟩, true, 3⟩).2.2.2.1 (by decide),
    (C13_traversal_gating sampleHost CheckBase.baseVirtuals
      (VisitDeclaration sampleHost CheckBase.baseVirtuals (CheckBase.ctor "X" sampleCI)
        ⟨⟨7⟩, true, 3⟩) ⟨⟨8⟩, 4⟩ ⟨⟨9⟩, false, 5⟩).2.2.2.2.1 (by decide)⟩

/-- C14, counterexample: on the sample host the check "X" ignores "generated/", the file
position 600 lies in generated/foo.h and shouldIgnoreFile rejects it, and emitWarning
called at that position still sends its diagnostic. -/
theorem C14_counterexample :
    sampleVirtuals.filesToIgnore = ["generated/"]
    ∧ sampleHost.getFilename ⟨600⟩ = "generated/foo.h"
    ∧ sampleHost.isMacroID ⟨600⟩ = false
    ∧ shouldIgnoreFile sampleHost sampleVirtuals ⟨600⟩ = true
    ∧ (emitWarning sampleHost (CheckBase.ctor "X" sampleCI) ⟨600⟩ "found issue" []
        true).m_ci.diagnostics = [⟨⟨600⟩, "found issue [-Wclazy-X]", []⟩] := by
  decide

/-- C14, amended: for a check whose ignored-file list contains a substring of the file name
of a position, shouldIgnoreFile rejects the position and the traversal callbacks
VisitStatement and VisitDeclaration return the check unchanged for a node starting there,
without invoking the hook, so a warning the hook would request sends no diagnostic;
emitWarning itself does not consult the ignored-file list, and called at a non-macro
position in that file it sends its primary diagnostic. -/
theorem C14_ignored_file_gating (h : Host) (v : Virtuals) (c : CheckBase) (loc : SourceLocation)
    (hig : ∃ ignored ∈ v.filesToIgnore, ∃ pre post : String,
      h.getFilename loc = pre ++ ignored ++ post) :
    shouldIgnoreFile h v loc = true
    ∧ (∀ stm : Stmt, stm.locStart = loc → VisitStatement h v c stm = c)
    ∧ (∀ decl : Decl, decl.locStart = loc → VisitDeclaration h v c decl = c)
    ∧ (h.isMacroID loc = false →
        ∀ (error : String) (fixits : List FixItHint) (printWarningTag : Bool),
          (emitWarning h c loc error fixits printWarningTag).m_ci.diagnostics
            = c.m_ci.diagnostics ++ primaryDiagnostic c loc error fixits printWarningTag ::
                c.m_queuedManualInterventionWarnings.map (manualDiagnostic c)) := by
  have hrej : shouldIgnoreFile h v loc = true := by
    unfold shouldIgnoreFile
    split
    · rfl
    · simp only [List.any_eq_true, contains_iff]
      exact hig
  refine ⟨hrej, ?_, ?_, ?_⟩
  · intro stm hstm
    simp [VisitStatement, hstm, hrej]
  · intro decl hdecl
    simp [VisitDeclaration, hdecl, hrej]
  · intro hm error fixits printWarningTag
    rw [emitWarning_emitted h c loc error fixits printWarningTag (by simp [suppressed, hm])]

/-- Witness of C14 on the sample host: the check "X" ignores "generated/" and its hooks
request a warning at the visited node; for a statement and a declaration at position 600
of generated/foo.h the callbacks send nothing, and a direct emitWarning there sends one
diagnostic. -/
theorem C14_ignored_file_gating_witness :
    VisitStatement sampleHost sampleVirtuals (CheckBase.ctor "X" sampleCI) ⟨⟨600⟩, 1⟩
        = CheckBase.ctor "X" sampleCI
    ∧ VisitDeclaration sampleHost sampleVirtuals (CheckBase.ctor "X" sampleCI) ⟨⟨600⟩, false, 2⟩
        = CheckBase.ctor "X" sampleCI
    ∧ (emitWarning sampleHost (CheckBase.ctor "X" sampleCI) ⟨600⟩ "found issue" []
        true).m_ci.diagnostics = [⟨⟨600⟩, "found issue [-Wclazy-X]", []⟩] :=
  ⟨(C14_ignored_file_gating sampleHost sampleVirtuals (CheckBase.ctor "X" sampleCI) ⟨600⟩
      ⟨"generated/", by decide, "", "foo.h", by decide⟩).2.1 ⟨⟨600⟩, 1⟩ rfl,
    (C14_ignored_file_gating sampleHost sampleVirtuals (CheckBase.ctor "X" sampleCI) ⟨600⟩
      ⟨"generated/", by decide, "", "foo.h", by decide⟩).2.2.1 ⟨⟨600⟩, false, 2⟩ rfl,
    (C14_ignored_file_gating sampleHost sampleVirtuals (CheckBase.ctor "X" sampleCI) ⟨600⟩
      ⟨"generated/", by decide, "", "foo.h", by decide⟩).2.2.2 (by decide) "found issue" []
      true⟩

/-- C15: a suppressed emitWarning call is a complete no-op. For every state and every macro
position for which warningAlreadyEmitted holds, emitWarning returns the check as it was:
both logs, the manual-intervention queue (kept, neither flushed nor cleared), the fixit
mask and the sink are unchanged. Every emitWarning call sends either no diagnostic, which
is this case, or exactly 1 + (length of the queue before the call). -/
theorem C15_suppressed_call_is_noop (h : Host) (c : CheckBase) (loc : SourceLocation)
    (error : String) (fixits : List FixItHint) (printWarningTag : Bool) :
    (h.isMacroID loc = true → warningAlreadyEmitted h c loc = true →
        emitWarning h c loc error fixits printWarningTag = c)
    ∧ (∃ sent : List Diagnostic,
        (emitWarning h c loc error fixits printWarningTag).m_ci.diagnostics
          = c.m_ci.diagnostics ++ sent
        ∧ ((sent.length = 0 ∧ h.isMacroID loc = true ∧ warningAlreadyEmitted h c loc = true)
          ∨ (sent.length = 1 + c.m_queuedManualInterventionWarnings.length
            ∧ ¬ (h.isMacroID loc = true ∧ warningAlreadyEmitted h c loc = true)))) := by
  constructor
  · intro hm hw
    exact emitWarning_suppressed h c loc error fixits printWarningTag (by simp [suppressed, hm, hw])
  · cases hs : suppressed h c loc
    · rw [emitWarning_emitted h c loc error fixits printWarningTag hs]
      refine ⟨_, rfl, Or.inr ⟨by simp [Nat.add_comm], ?_⟩⟩
      intro hboth
      simp [suppressed, hboth.1, hboth.2] at hs
    · rw [emitWarning_suppressed h c loc error fixits printWarningTag hs]
      refine ⟨[], by simp, Or.inl ⟨rfl, ?_⟩⟩
      simpa [suppressed] using hs

/-- Witness of C15 on the sample host: after a warning at the macro position 2^31 + 7 and
a notice queued at position 3, a warning at the macro position 2^31 + 1007, which expands
at the same place, returns the check as it was, the queued notice included. -/
theorem C15_suppressed_call_is_noop_witness :
    emitWarning sampleHost
        (run sampleHost (CheckBase.ctor "X" sampleCI)
          [.setEnabledFixits 4, .emitWarning ⟨2 ^ 31 + 7⟩ "found issue" [] true,
            .queueManualFixitWarning ⟨3⟩ 4 "msg"])
        ⟨2 ^ 31 + 1007⟩ "found issue" [] true
      = run sampleHost (CheckBase.ctor "X" sampleCI)
          [.setEnabledFixits 4, .emitWarning ⟨2 ^ 31 + 7⟩ "found issue" [] true,
            .queueManualFixitWarning ⟨3⟩ 4 "msg"] :=
  (C15_suppressed_call_is_noop sampleHost
    (run sampleHost (CheckBase.ctor "X" sampleCI)
      [.setEnabledFixits 4, .emitWarning ⟨2 ^ 31 + 7⟩ "found issue" [] true,
        .queueManualFixitWarning ⟨3⟩ 4 "msg"])
    ⟨2 ^ 31 + 1007⟩ "found issue" [] true).1 (by decide) (by decide)

/-- C16: the invariant of the logs is kept by every operation from a fresh check, assuming
presumed-location equality is symmetric. It holds on a fresh check, every operation keeps
it, and so after every sequence of operations from a fresh check: every entry of the
macro-warning log is a macro position; no two entries of the macro-warning log have equal
presumed locations; no two entries of the manual-intervention log have equal presumed
locations; every position in the manual-intervention queue has its raw encoding in the
manual-intervention log. -/
theorem C16_logs_invariant (h : Host)
    (hsym : ∀ a b, h.presumedLocationsEqual a b = h.presumedLocationsEqual b a) :
    (∀ (name : String) (ci : CompilerInstance), logsWellFormed h (CheckBase.ctor name ci))
    ∧ (∀ (c : CheckBase) (op : Op), logsWellFormed h c → logsWellFormed h (step h c op))
    ∧ (∀ (name : String) (ci : CompilerInstance) (ops : List Op),
        (∀ r ∈ (run h (CheckBase.ctor name ci) ops).m_emittedWarningsInMacro,
          h.isMacroID (SourceLocation.getFromRawEncoding r) = true)
        ∧ (run h (CheckBase.ctor name ci) ops).m_emittedWarningsInMacro.Pairwise (fun a b =>
            h.presumedLocationsEqual (h.getPresumedLoc (SourceLocation.getFromRawEncoding a))
              (h.getPresumedLoc (SourceLocation.getFromRawEncoding b)) = false
            ∧ h.presumedLocationsEqual (h.getPresumedLoc (SourceLocation.getFromRawEncoding b))
              (h.getPresumedLoc (SourceLocation.getFromRawEncoding a)) = false)
        ∧ (run h (CheckBase.ctor name ci) ops).m_emittedManualFixItsWarningsInMacro.Pairwise
            (fun a b =>
              h.presumedLocationsEqual (h.getPresumedLoc (SourceLocation.getFromRawEncoding a))
                (h.getPresumedLoc (SourceLocation.getFromRawEncoding b)) = false
              ∧ h.presumedLocationsEqual (h.getPresumedLoc (SourceLocation.getFromRawEncoding b))
                (h.getPresumedLoc (SourceLocation.getFromRawEncoding a)) = false)
        ∧ ∀ l ∈ (run h (CheckBase.ctor name ci) ops).m_queuedManualInterventionWarnings,
            l.1.getRawEncoding
              ∈ (run h (CheckBase.ctor name ci) ops).m_emittedManualFixItsWarningsInMacro) :=
  ⟨logsWellFormed_ctor h,
    fun c op hw => logsWellFormed_step h hsym c op hw,
    fun name ci ops => logsWellFormed_run h hsym ops _ (logsWellFormed_ctor h name ci)⟩

/-- Witness of C16 on the sample host, whose presumed-location equality is symmetric: the
invariant after warnings at three macro positions, two of which expand at the same place,
and two notices at the same file position. -/
theorem C16_logs_invariant_witness :
    (run sampleHost (CheckBase.ctor "X" sampleCI)
        [.setEnabledFixits 4, .emitWarning ⟨2 ^ 31 + 7⟩ "one" [] true,
          .emitWarning ⟨2 ^ 31 + 1007⟩ "two" [] true, .emitWarning ⟨2 ^ 31 + 8⟩ "three" [] true,
          .queueManualFixitWarning ⟨3⟩ 4 "msg",
          .queueManualFixitWarning ⟨3⟩ 4 "again"]).m_emittedWarningsInMacro
      = [2 ^ 31 + 7, 2 ^ 31 + 8]
    ∧ logsWellFormed sampleHost
        (run sampleHost (CheckBase.ctor "X" sampleCI)
          [.setEnabledFixits 4, .emitWarning ⟨2 ^ 31 + 7⟩ "one" [] true,
            .emitWarning ⟨2 ^ 31 + 1007⟩ "two" [] true, .emitWarning ⟨2 ^ 31 + 8⟩ "three" [] true,
            .queueManualFixitWarning ⟨3⟩ 4 "msg", .queueManualFixitWarning ⟨3⟩ 4 "again"]) :=
  ⟨by decide,
    (C16_logs_invariant sampleHost sampleHost_symmetric).2.2 "X" sampleCI
      [.setEnabledFixits 4, .emitWarning ⟨2 ^ 31 + 7⟩ "one" [] true,
        .emitWarning ⟨2 ^ 31 + 1007⟩ "two" [] true, .emitWarning ⟨2 ^ 31 + 8⟩ "three" [] true,
        .queueManualFixitWarning ⟨3⟩ 4 "msg", .queueManualFixitWarning ⟨3⟩ 4 "again"]⟩

/-- C17: non-macro positions are never deduplicated by emitWarning. For every state,
whatever the macro-warning log already contains, and every n >= 1, n consecutive
emitWarning calls at positions that are not macro positions (in particular all at the same
position) send n primary diagnostics, one per call in order, the first one followed by the
notices that were queued, and leave the macro-warning log unchanged. -/
theorem C17_non_macro_never_deduplicated (h : Host) (c : CheckBase) (first : EmitCall)
    (rest : List EmitCall) (hnon : ∀ call ∈ first :: rest, h.isMacroID call.loc = false) :
    (emitAll h c (first :: rest)).m_ci.diagnostics =
        c.m_ci.diagnostics ++
          primaryDiagnostic c first.loc first.error first.fixits first.printWarningTag ::
            (c.m_queuedManualInterventionWarnings.map (manualDiagnostic c) ++
              rest.map (fun call =>
                primaryDiagnostic c call.loc call.error call.fixits call.printWarningTag))
      ∧ (emitAll h c (first :: rest)).m_emittedWarningsInMacro = c.m_emittedWarningsInMacro := by
  have hm := hnon first (List.mem_cons_self _ _)
  have he := emitWarning_emitted h c first.loc first.error first.fixits first.printWarningTag
    (by simp [suppressed, hm])
  have hrest := emitAll_non_macro h rest
    (emitWarning h c first.loc first.error first.fixits first.printWarningTag)
    (fun b hb => hnon b (List.mem_cons_of_mem _ hb)) (by rw [he])
  obtain ⟨hp, _⟩ := diagnostics_congr
    (emitWarning h c first.loc first.error first.fixits first.printWarningTag) c (by rw [he])
  rw [hp] at hrest
  simp only [emitAll]
  rw [hrest.1, hrest.2, he]
  simp [hm]

/-- Witness of C17 on the sample host: the macro position 2^31 + 7 is in the log, the file
position 7 has an equal presumed location, and three warnings at position 7 send three
diagnostics and leave the log as it was. -/
theorem C17_non_macro_never_deduplicated_witness :
    (emitAll sampleHost
        (emitWarning sampleHost (CheckBase.ctor "X" sampleCI) ⟨2 ^ 31 + 7⟩ "found issue" [] true)
        [⟨⟨7⟩, "a", [], true⟩, ⟨⟨7⟩, "a", [], true⟩, ⟨⟨7⟩, "a", [], true⟩]).m_ci.diagnostics
      = [⟨⟨2 ^ 31 + 7⟩, "found issue [-Wclazy-X]", []⟩, ⟨⟨7⟩, "a [-Wclazy-X]", []⟩,
          ⟨⟨7⟩, "a [-Wclazy-X]", []⟩, ⟨⟨7⟩, "a [-Wclazy-X]", []⟩]
    ∧ (emitAll sampleHost
        (emitWarning sampleHost (CheckBase.ctor "X" sampleCI) ⟨2 ^ 31 + 7⟩ "found issue" [] true)
        [⟨⟨7⟩, "a", [], true⟩, ⟨⟨7⟩, "a", [], true⟩,
          ⟨⟨7⟩, "a", [], true⟩]).m_emittedWarningsInMacro = [2 ^ 31 + 7] :=
  C17_non_macro_never_deduplicated sampleHost
    (emitWarning sampleHost (CheckBase.ctor "X" sampleCI) ⟨2 ^ 31 + 7⟩ "found issue" [] true)
    ⟨⟨7⟩, "a", [], true⟩ [⟨⟨7⟩, "a", [], true⟩, ⟨⟨7⟩, "a", [], true⟩] (by decide)

/-- C18: for arbitrary integer fixit identifiers, isFixitEnabled(id) equals
((mask AND id) != 0) OR the global override. So an identifier is enabled, the override
apart, exactly when at least one of its bits is in the mask: with the mask 1 the identifier
3, of which only one bit is in the mask, is enabled; and the identifier 0 is enabled only
by the global override, for every mask. -/
theorem C18_isFixitEnabled_any_bit (h : Host) (c : CheckBase) (fixit : Int) :
    isFixitEnabled h c fixit = (Int.land c.m_enabledFixits fixit != 0 || h.allFixitsEnabled)
    ∧ (isFixitEnabled h c fixit = true ↔
        ((∃ k, c.m_enabledFixits.testBit k = true ∧ fixit.testBit k = true)
          ∨ h.allFixitsEnabled = true))
    ∧ isFixitEnabled h (setEnabledFixits c 1) 3 = true
    ∧ Int.land 1 3 ≠ 3
    ∧ isFixitEnabled h c 0 = h.allFixitsEnabled := by
  refine ⟨rfl, ?_, ?_, by decide, ?_⟩
  · simp only [isFixitEnabled, Bool.or_eq_true, bne_iff_ne]
    rw [int_ne_zero_iff_testBit]
    simp only [Int.testBit_land, Bool.and_eq_true]
  · have h13 : Int.land 1 3 = 1 := by decide
    simp [isFixitEnabled, setEnabledFixits, h13]
  · have h0 : Int.land c.m_enabledFixits 0 = 0 := by
      cases hc : c.m_enabledFixits with
      | ofNat n => show ((n &&& 0 : Nat) : Int) = 0; simp
      | negSucc n => show ((Nat.ldiff 0 n : Nat) : Int) = 0; simp [Nat.ldiff]
    simp [isFixitEnabled, h0]

end Clazy
